import Mathlib

/-!
Verification development for the `vc` TypeScript library (Verifiable
Credentials issuance and verification).

The TypeScript sources are shallowly embedded:
* JSON-like runtime values become the inductive `JSValue`; JavaScript
  `Error` / `TypeError` / `RangeError` objects are modelled by `JsErr`
  carrying the message string.
* throwing code becomes `Except JsErr _`; `async` functions are modelled by
  their eventual result, and a promise rejection by `Except.error`.
* external capabilities used by the library (JS `Date` parsing and
  formatting, WHATWG `URL` parsing, `jsonld-signatures`' `sign`/`verify`,
  the caller-supplied `checkStatus` function) are fields of an environment
  record `JSEnv` / options records, exactly at the call boundary where the
  library consumes them.
* the two date regular expressions of the sources are embedded as explicit
  regex ASTs (`RE`) with a backtracking matcher, including the quirk that
  `helpers.ts` builds its regex from a plain string literal in which `'\.'`
  denotes `.` (any character), and that this regex has no `^`/`$` anchors.
-/

/-- JavaScript `Error`-like values, by constructor name and message. -/
inductive JsErr where
  | err (msg : String)
  | type (msg : String)
  | range (msg : String)
deriving DecidableEq, Repr

/-- JSON-ish JavaScript runtime values. `func` models function values (only
their `typeof` and truthiness are observed by the embedded code). -/
inductive JSValue where
  | undefined
  | null
  | bool (b : Bool)
  | num (n : Int)
  | str (s : String)
  | arr (elems : List JSValue)
  | obj (fields : List (String × JSValue))
  | func (name : String)
deriving Repr

namespace JSValue

/-- Property read `v[k]`: assoc-list lookup on objects, `undefined`
otherwise (primitive boxing; the embedded callers never read properties of
`null`/`undefined`). -/
def get (v : JSValue) (k : String) : JSValue :=
  match v with
  | .obj fields =>
    match fields.lookup k with
    | some w => w
    | none => .undefined
  | _ => .undefined

/-- JavaScript `k in v` restricted to objects (key presence, not truthiness). -/
def hasKey (v : JSValue) (k : String) : Bool :=
  match v with
  | .obj fields => (fields.lookup k).isSome
  | _ => false

/-- Number of own enumerable keys, as `Object.keys(v).length`. -/
def keysCount (v : JSValue) : Nat :=
  match v with
  | .obj fields => fields.length
  | .arr elems => elems.length
  | _ => 0

/-- JavaScript truthiness. -/
def truthy (v : JSValue) : Bool :=
  match v with
  | .undefined => false
  | .null => false
  | .bool b => b
  | .num n => n != 0
  | .str s => s ≠ ""
  | .arr _ => true
  | .obj _ => true
  | .func _ => true

/-- JavaScript `typeof`. -/
def jsTypeof (v : JSValue) : String :=
  match v with
  | .undefined => "undefined"
  | .null => "object"
  | .bool _ => "boolean"
  | .num _ => "number"
  | .str _ => "string"
  | .arr _ => "object"
  | .obj _ => "object"
  | .func _ => "function"

/-- `Array.isArray`. -/
def isArr (v : JSValue) : Bool :=
  match v with
  | .arr _ => true
  | _ => false

/-- Property write `v[k] = w` (functional): update in place, or append a new
key, as JavaScript property assignment does. -/
def set (v : JSValue) (k : String) (w : JSValue) : JSValue :=
  match v with
  | .obj fields =>
    if (fields.lookup k).isSome then
      .obj (fields.map (fun p => if p.1 = k then (k, w) else p))
    else
      .obj (fields ++ [(k, w)])
  | v => v

end JSValue

/-- JavaScript strict equality `===` on the values the embedded code
compares. Primitives compare by value; `object`/`array`/`function`
operands compare by reference in JavaScript, and the embedded comparisons
always put freshly produced references on at least one side, so those
compare unequal here. -/
def jsStrictEq : JSValue → JSValue → Bool
  | .undefined, .undefined => true
  | .null, .null => true
  | .bool a, .bool b => a == b
  | .num a, .num b => a == b
  | .str a, .str b => a == b
  | _, _ => false

/-- `Array.prototype.includes` (SameValueZero, via `jsStrictEq`). -/
def includesSVZ (xs : List JSValue) (v : JSValue) : Bool :=
  xs.any (fun x => jsStrictEq x v)

/-- `jsonld.getValues(subject, property)` (external `jsonld` library):
returns `[]` for a missing/null value, the array itself for an array, and
a singleton otherwise. -/
def getValues (subject : JSValue) (property : String) : List JSValue :=
  match subject.get property with
  | .undefined => []
  | .null => []
  | .arr xs => xs
  | v => [v]

mutual

/-- `String(v)` / template-literal coercion.  Arrays stringify as their
elements joined by commas with `null`/`undefined` elements blank. -/
def jsToString : JSValue → String
  | .undefined => "undefined"
  | .null => "null"
  | .bool b => cond b "true" "false"
  | .num n => toString n
  | .str s => s
  | .obj _ => "[object Object]"
  | .func _ => "function"
  | .arr xs => String.intercalate "," (jsToStringElems xs)

/-- Element stringification for `Array.prototype.join`. -/
def jsToStringElems : List JSValue → List String
  | [] => []
  | .undefined :: rest => "" :: jsToStringElems rest
  | .null :: rest => "" :: jsToStringElems rest
  | v :: rest => jsToString v :: jsToStringElems rest

end

/-- Reading index `0`, as `context[0]` does in `helpers.ts`: element of an
array, first character of a string, property `"0"` of an object, a
`TypeError` on `null`/`undefined`. -/
def jsIndex0 (v : JSValue) : Except JsErr JSValue :=
  match v with
  | .undefined => .error (.type "Cannot read properties of undefined (reading '0')")
  | .null => .error (.type "Cannot read properties of null (reading '0')")
  | .arr xs =>
    match xs.head? with
    | some x => .ok x
    | none => .ok .undefined
  | .str s =>
    match s.toList.head? with
    | some c => .ok (.str (String.mk [c]))
    | none => .ok .undefined
  | .obj fields =>
    match fields.lookup "0" with
    | some w => .ok w
    | none => .ok .undefined
  | _ => .ok .undefined

/-- JavaScript `k in v`: key presence on objects, a `TypeError` on
primitives. -/
def jsInOp (k : String) (v : JSValue) : Except JsErr Bool :=
  match v with
  | .obj fields => .ok ((fields.lookup k).isSome)
  | .arr _ => .ok false
  | .func _ => .ok false
  | _ =>
    .error (.type ("Cannot use 'in' operator to search for '" ++ k ++ "'"))

/-- A JavaScript `Date` value by epoch milliseconds; `none` is an
`Invalid Date` (internal `NaN` timestamp). -/
abbrev JSDate := Option Int

/-- `a < b` on `Date`s: numeric comparison; any comparison involving an
`Invalid Date` (`NaN`) is `false`. -/
def jsLtB (a b : JSDate) : Bool :=
  match a, b with
  | some x, some y => decide (x < y)
  | _, _ => false

/-- The `now` argument accepted by the library: absent, an ISO string, or a
`Date` object (possibly invalid). -/
inductive NowParam where
  | absent
  | str (s : String)
  | date (d : JSDate)
deriving Repr

/-!
## A small regex AST and backtracking matcher

Sufficient for the two date patterns of the sources: character literals and
classes, concatenation, alternation, `?`, and `*`/`+` over a character
class.  `run` returns every possible remainder after matching a prefix.
-/

/-- Regex AST. -/
inductive RE where
  | eps
  | chr (c : Char)
  | cls (p : Char → Bool)
  | seq (a b : RE)
  | alt (a b : RE)
  | opt (a : RE)
  | star (p : Char → Bool)
  | plus (p : Char → Bool)

/-- All remainders reachable by consuming zero or more characters of class
`p` from the front. -/
def starRun (p : Char → Bool) : List Char → List (List Char)
  | [] => [[]]
  | c :: cs => (c :: cs) :: (if p c then starRun p cs else [])

/-- The set (as a list) of remainders after matching a prefix of `s`
against `re`. -/
def RE.run : RE → List Char → List (List Char)
  | .eps, s => [s]
  | .chr _, [] => []
  | .chr c, d :: s => if d = c then [s] else []
  | .cls _, [] => []
  | .cls p, d :: s => if p d then [s] else []
  | .seq a b, s => (a.run s).bind b.run
  | .alt a b, s => a.run s ++ b.run s
  | .opt a, s => s :: a.run s
  | .star p, s => starRun p s
  | .plus _, [] => []
  | .plus p, c :: cs => if p c then starRun p cs else []

/-- Anchored (`^...$`) match against the whole string. -/
def RE.fullmatch (re : RE) (s : String) : Bool :=
  (re.run s.toList).any (fun rem => rem.isEmpty)

/-- Unanchored `RegExp.prototype.test`: a match may start at any position
and need not reach the end. -/
def RE.test (re : RE) (s : String) : Bool :=
  s.toList.tails.any (fun t => !(re.run t).isEmpty)

/-- Concatenation of regexes, `foldr` over `seq`. -/
def RE.cat (res : List RE) : RE :=
  res.foldr RE.seq RE.eps

/-- A string literal as a regex. -/
def RE.lit (s : String) : RE :=
  RE.cat (s.toList.map RE.chr)

theorem starRun_append {p : Char → Bool} :
    ∀ {s : List Char} {rem : List Char}, rem ∈ starRun p s →
      ∀ (t : List Char), rem ++ t ∈ starRun p (s ++ t)
  | [], rem, h, t => by
    simp [starRun] at h
    subst h
    cases t with
    | nil => simp [starRun]
    | cons c cs => simp [starRun]
  | c :: cs, rem, h, t => by
    simp only [starRun, List.mem_cons] at h
    rcases h with h | h
    · subst h
      simp [starRun]
    · by_cases hp : p c
      · simp only [hp, if_true] at h
        have := starRun_append h t
        simp [starRun, hp]
        right
        exact this
      · simp [hp] at h

theorem RE.run_append :
    ∀ (re : RE) {s rem : List Char}, rem ∈ re.run s →
      ∀ (t : List Char), rem ++ t ∈ re.run (s ++ t)
  | .eps, s, rem, h, t => by
    simp [RE.run] at h
    subst h
    simp [RE.run]
  | .chr c, s, rem, h, t => by
    cases s with
    | nil => simp [RE.run] at h
    | cons d ds =>
      by_cases hd : d = c
      · simp [RE.run, hd] at h
        subst h
        simp [RE.run, hd]
      · simp [RE.run, hd] at h
  | .cls p, s, rem, h, t => by
    cases s with
    | nil => simp [RE.run] at h
    | cons d ds =>
      by_cases hd : p d
      · simp [RE.run, hd] at h
        subst h
        simp [RE.run, hd]
      · simp [RE.run, hd] at h
  | .seq a b, s, rem, h, t => by
    simp only [RE.run, List.mem_bind] at h
    obtain ⟨mid, hmid, hrem⟩ := h
    have h1 := RE.run_append a hmid t
    have h2 := RE.run_append b hrem t
    simp only [RE.run, List.mem_bind]
    exact ⟨mid ++ t, h1, h2⟩
  | .alt a b, s, rem, h, t => by
    simp only [RE.run, List.mem_append] at h
    rcases h with h | h
    · exact List.mem_append.2 (Or.inl (RE.run_append a h t))
    · exact List.mem_append.2 (Or.inr (RE.run_append b h t))
  | .opt a, s, rem, h, t => by
    simp only [RE.run, List.mem_cons] at h
    rcases h with h | h
    · subst h
      simp [RE.run]
    · simp only [RE.run, List.mem_cons]
      exact Or.inr (RE.run_append a h t)
  | .star p, s, rem, h, t => starRun_append h t
  | .plus p, s, rem, h, t => by
    cases s with
    | nil => simp [RE.run] at h
    | cons c cs =>
      by_cases hp : p c
      · simp only [RE.run, hp, if_true] at h
        simp only [List.cons_append, RE.run, hp, if_true]
        exact starRun_append h t
      · simp [RE.run, hp] at h

theorem RE.mem_run_seq {a b : RE} {s rem : List Char} :
    rem ∈ (RE.seq a b).run s ↔ ∃ mid, mid ∈ a.run s ∧ rem ∈ b.run mid := by
  simp [RE.run, List.mem_bind]

/-!
## The two date patterns of the sources
-/

/-- Character class `[lo-hi]`. -/
def cin (lo hi : Char) : RE :=
  RE.cls (fun c => lo.toNat ≤ c.toNat && c.toNat ≤ hi.toNat)

/-- Character class `[0-9]`. -/
def isDigitCh (c : Char) : Bool :=
  48 ≤ c.toNat && c.toNat ≤ 57

/-- JavaScript `.` (any character but a line terminator).  Relevant because
`helpers.ts` builds its regex from a plain string literal, where the
two-character sequence backslash-dot collapses to a lone `.`. -/
def isDotAny (c : Char) : Bool :=
  !(c = Char.ofNat 10 || c = Char.ofNat 13 || c = Char.ofNat 8232 || c = Char.ofNat 8233)

/-- `helpers.ts` `dateRegex` (lines 10-15), translated subexpression by
subexpression.  The pattern text after JS string-escape processing is
`-?([1-9][0-9]{3,}|0[0-9]{3})-(0[1-9]|1[0-2])-(0[1-9]|[12][0-9]|3[01])`
`T(([01][0-9]|2[0-3]):[0-5][0-9]:[0-5][0-9](.[0-9]+)?|(24:00:00(.0+)?))`
`(Z|(\+|-)((0[0-9]|1[0-3]):[0-5][0-9]|14:00))?` — note the unescaped `.`
and the absence of `^`/`$` anchors. -/
def dateRegexRE : RE :=
  RE.cat [
    RE.opt (RE.chr '-'),
    RE.alt
      (RE.cat [cin '1' '9', cin '0' '9', cin '0' '9', cin '0' '9', RE.star isDigitCh])
      (RE.cat [RE.chr '0', cin '0' '9', cin '0' '9', cin '0' '9']),
    RE.chr '-',
    RE.alt (RE.seq (RE.chr '0') (cin '1' '9')) (RE.seq (RE.chr '1') (cin '0' '2')),
    RE.chr '-',
    RE.alt (RE.seq (RE.chr '0') (cin '1' '9'))
      (RE.alt (RE.seq (cin '1' '2') (cin '0' '9')) (RE.seq (RE.chr '3') (cin '0' '1'))),
    RE.chr 'T',
    RE.alt
      (RE.cat [
        RE.alt (RE.seq (cin '0' '1') (cin '0' '9')) (RE.seq (RE.chr '2') (cin '0' '3')),
        RE.chr ':', cin '0' '5', cin '0' '9',
        RE.chr ':', cin '0' '5', cin '0' '9',
        RE.opt (RE.seq (RE.cls isDotAny) (RE.plus isDigitCh))])
      (RE.seq (RE.lit "24:00:00")
        (RE.opt (RE.seq (RE.cls isDotAny) (RE.plus (fun c => c = '0'))))),
    RE.opt (RE.alt (RE.chr 'Z')
      (RE.seq (RE.alt (RE.chr '+') (RE.chr '-'))
        (RE.alt
          (RE.cat [
            RE.alt (RE.seq (RE.chr '0') (cin '0' '9')) (RE.seq (RE.chr '1') (cin '0' '3')),
            RE.chr ':', cin '0' '5', cin '0' '9'])
          (RE.lit "14:00"))))]

/-- The date-and-time core of `XSD.ts` `DateTimePattern` (part_005 lines
43): `-?[1-9][0-9]*-(1[0-2]|0[1-9])-(3[01]|[12][0-9]|0[1-9])`
`T(2[0-3]|[01][0-9]):[0-5][0-9]:[0-5][0-9]` (no fraction, no zone). -/
def dtCoreRE : RE :=
  RE.cat [
    RE.opt (RE.chr '-'),
    cin '1' '9', RE.star isDigitCh,
    RE.chr '-',
    RE.alt (RE.seq (RE.chr '1') (cin '0' '2')) (RE.seq (RE.chr '0') (cin '1' '9')),
    RE.chr '-',
    RE.alt (RE.seq (RE.chr '3') (cin '0' '1'))
      (RE.alt (RE.seq (cin '1' '2') (cin '0' '9')) (RE.seq (RE.chr '0') (cin '1' '9'))),
    RE.chr 'T',
    RE.alt (RE.seq (RE.chr '2') (cin '0' '3')) (RE.seq (cin '0' '1') (cin '0' '9')),
    RE.chr ':', cin '0' '5', cin '0' '9',
    RE.chr ':', cin '0' '5', cin '0' '9']

/-- Optional second fraction `(\.[0-9]+)?` of `DateTimePattern` (a regex
literal in the source, so here the dot is a real `.`). -/
def dtFracRE : RE :=
  RE.opt (RE.seq (RE.chr '.') (RE.plus isDigitCh))

/-- Optional zone `([+-](1[0-2]|0[0-9]):[0-5][0-9]|Z)?` of
`DateTimePattern`. -/
def dtZoneRE : RE :=
  RE.opt (RE.alt
    (RE.cat [
      RE.cls (fun c => c = '+' || c = '-'),
      RE.alt (RE.seq (RE.chr '1') (cin '0' '2')) (RE.seq (RE.chr '0') (cin '0' '9')),
      RE.chr ':', cin '0' '5', cin '0' '9'])
    (RE.chr 'Z'))

/-- `XSD.ts` `DateTimePattern` (= `part_003` `DateStringPattern`), an
anchored `^...$` regex literal. -/
def DateTimePatternRE : RE :=
  RE.cat [dtCoreRE, dtFracRE, dtZoneRE]

/-!
## External capabilities and result shapes
-/

/-- A `checkStatus(...)` result (`{verified: bool}`). -/
structure StatusResult where
  verified : Bool
deriving DecidableEq, Repr

/-- The result shape produced by `jsigs.verify` and enriched by
`_verifyCredential` (`VerifyCredentialResult` in part_002). -/
structure VerifyResultR where
  verified : Bool
  results : List JSValue := []
  error : Option JsErr := none
  statusResult : Option StatusResult := none
  credentialId : JSValue := .undefined
deriving Repr

/-- Environment of external capabilities consumed by the library: JS `Date`
and `URL` built-ins and the external `jsonld-signatures` suite operations.
`jsigsVerify`/`jsigsSign` are keyed on the document passed in; suite,
purpose and document loader are fixed parts of the environment. -/
structure JSEnv where
  nowMs : Int := 0
  nowJSON : String := "1970-01-01T00:00:00.000Z"
  parseDate : String → JSDate := fun _ => none
  isoString : Int → String := fun _ => "1970-01-01T00:00:00.000Z"
  urlProtocol : String → Option String := fun _ => none
  jsigsVerify : JSValue → VerifyResultR := fun _ => { verified := false }
  jsigsSign : JSValue → JSValue := fun d => d

/-- `new Date(v)` on a `JSValue` argument. Strings go through the `Date`
parser; numbers, `null` and booleans coerce numerically; `undefined` gives
an `Invalid Date`; other objects coerce through their string form. -/
def jsNewDate (env : JSEnv) : JSValue → JSDate
  | .str s => env.parseDate s
  | .num n => some n
  | .null => some 0
  | .bool b => some (cond b 1 0)
  | .undefined => none
  | v => env.parseDate (jsToString v)

/-- `Date.prototype.toISOString` on a possibly-invalid date.  The `none`
case would throw a `RangeError` in JS; every use below is guarded by a
comparison that is `false` on invalid dates, so it is unreachable. -/
def isoOfOpt (env : JSEnv) : JSDate → String
  | some n => env.isoString n
  | none => "Invalid Date"

/-!
## `helpers.ts`
-/

namespace Helpers

/-- `@digitalbazaar/credentials-context` v1 context URL. -/
def ctxV1 : String := "https://www.w3.org/2018/credentials/v1"

/-- `@digitalbazaar/credentials-context` v2 context URL. -/
def ctxV2 : String := "https://www.w3.org/ns/credentials/v2"

/-- Membership in the `credentialsContextUrlToVersion` map (keys are the
two context URL strings; `Map.has` uses SameValueZero). -/
def contextMapHas (v : JSValue) : Bool :=
  jsStrictEq v (.str ctxV1) || jsStrictEq v (.str ctxV2)

/-- `helpers.ts` `assertCredentialContext` (lines 35-41): throws unless
`context[0]` is one of the two credentials-context URLs. -/
def assertCredentialContext (context : JSValue) : Except JsErr Unit := do
  let c0 ← jsIndex0 context
  if !contextMapHas c0 then
    throw (.err ("\"" ++ ctxV1 ++ "\" or \"" ++ ctxV2 ++
      "\" needs to be first in the list of contexts."))

/-- `helpers.ts` `assertDateString` (lines 49-53): unanchored
`dateRegex.test` on the (string-coerced) property value. -/
def assertDateString (credential : JSValue) (prop : String) : Except JsErr Unit :=
  let value := credential.get prop
  if !dateRegexRE.test (jsToString value) then
    .error (.err ("\"" ++ prop ++ "\" must be a valid date: " ++ jsToString value))
  else
    .ok ()

/-- `helpers.ts` `getContextVersion` (lines 60-63): map lookup on
`credential['@context'][0]` via optional chaining (no throw on missing
pieces). -/
def getContextVersion (credential : JSValue) : Option Nat :=
  let firstContext :=
    match credential.get "@context" with
    | .arr xs => xs.headD .undefined
    | .str s =>
      match s.toList.head? with
      | some c => .str (String.mk [c])
      | none => .undefined
    | .obj fields =>
      match fields.lookup "0" with
      | some w => w
      | none => .undefined
    | _ => .undefined
  if jsStrictEq firstContext (.str ctxV1) then some 1
  else if jsStrictEq firstContext (.str ctxV2) then some 2
  else none

/-- `helpers.ts` `checkContextVersion` (lines 80-82). -/
def checkContextVersion (credential : JSValue) (version : Nat) : Bool :=
  getContextVersion credential == some version

end Helpers

/-!
## `part_002` — the main `vc` module
-/

namespace VC

/-- part_002 `_getId` (lines 515-517): `typeof obj === 'string' ? obj : obj?.id`. -/
def _getId (obj : JSValue) : JSValue :=
  match obj with
  | .str s => .str s
  | .null => .undefined
  | .undefined => .undefined
  | v => v.get "id"

/-- part_002 `_validateUriId` (lines 761-769): `new URL(id)` must succeed
and yield a non-empty protocol. -/
def _validateUriId (env : JSEnv) (id : JSValue) (propertyName : String) : Except JsErr Unit :=
  match env.urlProtocol (jsToString id) with
  | none =>
    .error (.type ("\"" ++ propertyName ++ "\" must be a URI: \"" ++ jsToString id ++ "\"."))
  | some protocol =>
    if protocol = "" then
      .error (.type ("\"" ++ propertyName ++ "\" must be a URI: \"" ++ jsToString id ++ "\"."))
    else
      .ok ()

/-- part_002 `isObject` (lines 739-741): `obj !== null && typeof obj === 'object'`
(arrays count as objects, functions do not). -/
def isObject (obj : JSValue) : Bool :=
  match obj with
  | .obj _ => true
  | .arr _ => true
  | _ => false

/-- part_002 `_emptyObject` (lines 749-751). -/
def _emptyObject (obj : JSValue) : Bool :=
  !isObject obj || obj.keysCount == 0

/-- part_002 `_checkTypedObject` (lines 699-703). -/
def _checkTypedObject (obj : JSValue) (name : String) : Except JsErr Unit := do
  if !isObject obj then
    throw (.err ("property \"" ++ name ++ "\" must be an object."))
  if _emptyObject obj then
    throw (.err ("property \"" ++ name ++ "\" can not be an empty object."))
  let hasType ← jsInOp "type" obj
  if !hasType then
    throw (.err ("property \"" ++ name ++ "\" must have property type."))

/-- part_002 `_checkCredentialSubject` (lines 726-731). -/
def _checkCredentialSubject (env : JSEnv) (subject : JSValue) : Except JsErr Unit := do
  if !isObject subject then
    throw (.err "\"credentialSubject\" must be a non-null object.")
  if _emptyObject subject then
    throw (.err "\"credentialSubject\" must make a claim.")
  if (subject.get "id").truthy then
    _validateUriId env (subject.get "id") "credentialSubject.id"

/-- part_002 `_checkCredentialSubjects` (lines 712-717); note that after
checking every element of an array-valued `credentialSubject`, the source
also calls `_checkCredentialSubject` on the value itself. -/
def _checkCredentialSubjects (env : JSEnv) (credential : JSValue) : Except JsErr Unit := do
  if !(credential.get "credentialSubject").truthy then
    throw (.err "\"credentialSubject\" property is required.")
  (match credential.get "credentialSubject" with
   | .arr xs => xs.forM (fun subject => _checkCredentialSubject env subject)
   | _ => pure ())
  _checkCredentialSubject env (credential.get "credentialSubject")

/-- part_002 `mustHaveType` (lines 540-545). -/
def mustHaveType : List String :=
  ["proof", "credentialStatus", "termsOfUse", "evidence"]

/-- The `now` normalization at the head of `_checkCredential` (lines
556-565): default `new Date()`, and `new Date(now)` when a string. -/
def nowValue (env : JSEnv) : NowParam → JSDate
  | .absent => some env.nowMs
  | .str s => env.parseDate s
  | .date d => d

/-- part_002 `_checkCredential`, version-1.0 block (lines 582-614). -/
def _checkCredential_v1 (env : JSEnv) (credential : JSValue) (nowV : JSDate)
    (mode : String) : Except JsErr Unit := do
  if !(credential.get "issuanceDate").truthy then
    throw (.err "\"issuanceDate\" property is required.")
  Helpers.assertDateString credential "issuanceDate"
  if (getValues credential "issuanceDate").length > 1 then
    throw (.err "\"issuanceDate\" property can only have one value.")
  let hasExpiration ← jsInOp "expirationDate" credential
  if hasExpiration then do
    Helpers.assertDateString credential "expirationDate"
    if mode = "verify" then
      if jsLtB (jsNewDate env (credential.get "expirationDate")) nowV then
        throw (.err "Credential has expired.")
  if mode = "verify" then
    let issuanceDate := jsNewDate env (credential.get "issuanceDate")
    if jsLtB nowV issuanceDate then
      throw (.err ("The current date time (" ++ isoOfOpt env nowV ++
        ") is before the \"issuanceDate\" (" ++
        jsToString (credential.get "issuanceDate") ++ ")."))

/-- part_002 `_checkCredential`, version-2.0 block (lines 615-641). -/
def _checkCredential_v2 (env : JSEnv) (credential : JSValue) (nowV : JSDate)
    (mode : String) : Except JsErr Unit := do
  if (credential.get "validUntil").truthy then do
    Helpers.assertDateString credential "validUntil"
    if mode = "verify" then
      if jsLtB (jsNewDate env (credential.get "validUntil")) nowV then
        throw (.err ("The current date time (" ++ isoOfOpt env nowV ++
          ") is after \"validUntil\" (" ++
          jsToString (credential.get "validUntil") ++ ")."))
  if (credential.get "validFrom").truthy then do
    Helpers.assertDateString credential "validFrom"
    if mode = "verify" then
      if jsLtB nowV (jsNewDate env (credential.get "validFrom")) then
        throw (.err ("The current date time (" ++ isoOfOpt env nowV ++
          ") is before \"validFrom\" (" ++
          jsToString (credential.get "validFrom") ++ ")."))

/-- part_002 `_checkCredential`, trailing issuer / status / evidence /
typed-object checks (lines 642-689). -/
def _checkCredential_tail (env : JSEnv) (credential : JSValue) : Except JsErr Unit := do
  if (getValues credential "issuer").length > 1 then
    throw (.err "\"issuer\" property can only have one value.")
  let hasIssuer ← jsInOp "issuer" credential
  if hasIssuer then do
    let issuer := _getId (credential.get "issuer")
    if !issuer.truthy then
      throw (.err "\"issuer\" id is required.")
    _validateUriId env issuer "issuer"
  (getValues credential "credentialStatus").forM (fun cs => do
    let hasId ← jsInOp "id" cs
    if hasId then
      _validateUriId env (cs.get "id") "credentialStatus.id"
    if !(cs.get "type").truthy then
      throw (.err "\"credentialStatus\" must include a type."))
  (getValues credential "evidence").forM (fun evidence => do
    let evidenceId := _getId evidence
    if evidenceId.truthy then
      _validateUriId env evidenceId "evidence")
  mustHaveType.forM (fun prop => do
    let present ← jsInOp prop credential
    if present then
      match credential.get prop with
      | .arr xs => xs.forM (fun entry => _checkTypedObject entry prop)
      | v => _checkTypedObject v prop)

/-- part_002 `_checkCredential` (lines 554-689). -/
def _checkCredential (env : JSEnv) (credential : JSValue)
    (now : NowParam := .absent) (mode : String := "verify") : Except JsErr Unit := do
  let nowV := nowValue env now
  Helpers.assertCredentialContext (credential.get "@context")
  if !(credential.get "type").truthy then
    throw (.err "\"type\" property is required.")
  if !includesSVZ (getValues credential "type") (.str "VerifiableCredential") then
    throw (.err "\"type\" must include `VerifiableCredential`.")
  _checkCredentialSubjects env credential
  if !(credential.get "issuer").truthy then
    throw (.err "\"issuer\" property is required.")
  if Helpers.checkContextVersion credential 1 then
    _checkCredential_v1 env credential nowV mode
  if Helpers.checkContextVersion credential 2 then
    _checkCredential_v2 env credential nowV mode
  _checkCredential_tail env credential

/-- part_002 `_checkPresentation` (lines 524-536): a non-array `@context`
is wrapped into a one-element array before the first-position check. -/
def _checkPresentation (presentation : JSValue) : Except JsErr Unit := do
  let context :=
    match presentation.get "@context" with
    | .arr xs => JSValue.arr xs
    | v => JSValue.arr [v]
  Helpers.assertCredentialContext context
  let types := getValues presentation "type"
  if !includesSVZ types (.str "VerifiablePresentation") then
    throw (.err "\"type\" must include \"VerifiablePresentation\".")

end VC

namespace VC

/-- Options consumed by `verifyCredential`/`_verifyCredential`.  The
caller-supplied `checkStatus` function is modelled by the result it would
return (`none` = no function supplied); suite/purpose/documentLoader are
part of `JSEnv`. -/
structure VerifyCredentialOptions where
  credential : JSValue
  checkStatus : Option StatusResult := none
  now : NowParam := .absent

/-- part_002 `_verifyCredential` (lines 288-330). -/
def _verifyCredential (env : JSEnv) (options : VerifyCredentialOptions) :
    Except JsErr VerifyResultR := do
  _checkCredential env options.credential options.now
  if (options.credential.get "credentialStatus").truthy && options.checkStatus.isNone then
    throw (.type ("A \"checkStatus\" function must be given to verify credentials with " ++
      "\"credentialStatus\"."))
  let result := env.jsigsVerify options.credential
  if !result.verified then
    return result
  match options.checkStatus with
  | some statusResult =>
    if (options.credential.get "credentialStatus").truthy then
      let statusVerified := if statusResult.verified then result.verified else false
      return { result with statusResult := some statusResult, verified := statusVerified }
    else
      return result
  | none => return result

/-- part_002 `verifyCredential` (lines 249-268): the body of
`_verifyCredential` is `await`ed inside `try`, so every internal failure is
converted into a structured `{verified: false, error, results}` record. -/
def verifyCredential (env : JSEnv) (options : VerifyCredentialOptions) : VerifyResultR :=
  let attempt : Except JsErr VerifyResultR := do
    if !options.credential.truthy then
      throw (.type "A \"credential\" property is required for verifying.")
    _verifyCredential env options
  match attempt with
  | .ok r => r
  | .error e =>
    { verified := false
      results := [JSValue.obj [("credential", options.credential),
        ("verified", .bool false),
        ("error", .str (match e with | .err m => m | .type m => m | .range m => m))]]
      error := some e }

/-- The result shape of `verify`/`_verifyPresentation`
(`VerifyPresentationResult` in part_002).  `results` and
`credentialResults` are `Option`s because the different return sites of the
source populate different subsets of the fields. -/
structure VerifyPresentationResultR where
  verified : Bool
  results : Option (List JSValue) := none
  presentationResult : Option VerifyResultR := none
  credentialResults : Option (List VerifyResultR) := none
  error : Option JsErr := none
deriving Repr

/-- Truthiness of the `challenge` option (a string option). -/
def challengeTruthy : Option String → Bool
  | some s => decide (s ≠ "")
  | none => false

/-- Options consumed by `verify`/`_verifyPresentation`. -/
structure VerifyPresentationOptions where
  presentation : JSValue
  unsignedPresentation : Bool := false
  presentationPurpose : Option Unit := none
  challenge : Option String := none
  checkStatus : Option StatusResult := none
  now : NowParam := .absent

/-- part_002 `_verifyPresentation` (lines 444-508).  `Promise.all` over
`credentials.map(...)` preserves the order of the input array, so the batch
is a `List.map`; the tagging loop then writes `credentialId` from
`credentials[i].id` positionally. -/
def _verifyPresentation (env : JSEnv) (options : VerifyPresentationOptions) :
    Except JsErr VerifyPresentationResultR := do
  _checkPresentation options.presentation
  let credentials := getValues options.presentation "verifiableCredential"
  let credentialResults :=
    if credentials.length > 0 then
      ((credentials.map (fun credential =>
          verifyCredential env
            { credential := credential
              checkStatus := options.checkStatus
              now := options.now })).zip
        credentials).map
        (fun rc => { rc.1 with credentialId := rc.2.get "id" })
    else []
  let verified :=
    if credentials.length > 0 then
      credentialResults.all (fun r => r.verified)
    else true
  if options.unsignedPresentation then
    return { verified := verified, results := some [options.presentation],
             credentialResults := some credentialResults }
  if options.presentationPurpose.isNone && !challengeTruthy options.challenge then
    throw (.err "A \"challenge\" param is required for AuthenticationProofPurpose.")
  let presentationResult := env.jsigsVerify options.presentation
  return { presentationResult := some presentationResult,
           verified := verified && presentationResult.verified,
           credentialResults := some credentialResults,
           error := presentationResult.error }

/-- part_002 `verify` (lines 199-222).  The `try` block returns the
*un-awaited* promise `_verifyPresentation(options)`, so only the
synchronous missing-`presentation` check is ever caught; a rejection coming
from inside `_verifyPresentation` passes through to the caller
(`Except.error` here). -/
def verify (env : JSEnv) (options : VerifyPresentationOptions) :
    Except JsErr VerifyPresentationResultR :=
  if !options.presentation.truthy then
    let e : JsErr := .type "A \"presentation\" property is required for verifying."
    .ok
      { verified := false
        results := some [JSValue.obj [("presentation", options.presentation),
          ("verified", .bool false),
          ("error", .str "A \"presentation\" property is required for verifying.")]]
        error := some e }
  else
    _verifyPresentation env options

/-- `s.slice(0, e)` for an integer `e` (negative values count back from the
end, with clamping), as used by part_002 `issue`. -/
def jsSliceFrom0 (s : String) (e : Int) : String :=
  let len : Int := s.toList.length
  let stop : Nat := if e < 0 then (max (len + e) 0).toNat else (min e len).toNat
  String.mk (s.toList.take stop)

/-- Options consumed by part_002 `issue`. -/
structure IssueOptions where
  credential : JSValue
  suite : JSValue
  now : NowParam := .absent

/-- part_002 `issue` (lines 90-121).  No `try`/`catch`: the `TypeError`s of
the precondition checks and every error thrown by `_checkCredential`
propagate to the caller.  When the context resolves to version 1.0 and
`issuanceDate` is absent, it is defaulted from `(new Date()).toJSON()` with
the last five characters (".sssZ") sliced off and a "Z" appended. -/
def issue (env : JSEnv) (options : IssueOptions) : Except JsErr JSValue := do
  if !options.suite.truthy then
    throw (.type "\"suite\" parameter is required for issuing.")
  if !(options.suite.get "verificationMethod").truthy then
    throw (.type "\"suite.verificationMethod\" property is required.")
  if !options.credential.truthy then
    throw (.type "\"credential\" parameter is required for issuing.")
  let credential :=
    if Helpers.checkContextVersion options.credential 1 &&
        !(options.credential.get "issuanceDate").truthy then
      options.credential.set "issuanceDate"
        (.str (jsSliceFrom0 env.nowJSON ((env.nowJSON.toList.length : Int) - 5) ++ "Z"))
    else
      options.credential
  _checkCredential env credential options.now "issue"
  return env.jsigsSign credential

end VC

/-!
## `src/lib/model` — the typed model path
-/

namespace Model

/-- `Util.ts` `isObject`: `value !== null && typeof value === 'object'`. -/
def isObjectU (v : JSValue) : Bool :=
  match v with
  | .obj _ => true
  | .arr _ => true
  | _ => false

/-- `Util.ts` `assertObject`. -/
def assertObject (v : JSValue) (path : String := "value") : Except JsErr Unit :=
  if !isObjectU v then
    .error (.type (path ++ " must be an object"))
  else
    .ok ()

/-- `Util.ts` `isRecord`: a non-null object that is not an array. -/
def isRecord (v : JSValue) : Bool :=
  match v with
  | .obj _ => true
  | _ => false

/-- `Util.ts` `assertRecord`. -/
def assertRecord (v : JSValue) (path : String := "value") (nonEmpty : Bool := false) :
    Except JsErr Unit := do
  match v with
  | .obj fields =>
    if nonEmpty && fields.length == 0 then
      throw (.err (path ++ " must not be empty"))
  | .arr _ => throw (.err (path ++ " must not be an array"))
  | .func _ =>
    -- `typeof function === 'function'`, so functions fail the object test
    throw (.err (path ++ " must be an object"))
  | _ => throw (.err (path ++ " must be an object"))

/-- `Util.ts` `assertArray`. -/
def assertArray (v : JSValue) (path : String := "value") (nonEmpty : Bool := false) :
    Except JsErr Unit := do
  match v with
  | .arr elems =>
    if nonEmpty && elems.length == 0 then
      throw (.err (path ++ " must not be empty"))
  | _ => throw (.err (path ++ " must be an array"))

/-- `Util.ts` `toArray`. -/
def toArray (v : JSValue) : List JSValue :=
  match v with
  | .arr xs => xs
  | .undefined => []
  | .null => []
  | v => [v]

/-- `XSD.ts` `assertString`. -/
def assertString (v : JSValue) (path : String := "value") : Except JsErr Unit :=
  match v with
  | .str _ => .ok ()
  | _ => .error (.type (path ++ " must be a string"))

/-- `XSD.ts` `assertAnyURI`: `assertString`, then `new URL(value)` (whose
`TypeError` propagates) must yield a non-empty protocol. -/
def assertAnyURI (env : JSEnv) (v : JSValue) (path : String := "value") :
    Except JsErr Unit := do
  assertString v path
  match env.urlProtocol (jsToString v) with
  | none => throw (.type ("Invalid URL: " ++ jsToString v))
  | some protocol =>
    if protocol = "" then
      throw (.err (path ++ " must have a protocol"))

/-- `XSD.ts` `assertDateTime` (= `part_003` `assertDateString`): anchored
`DateTimePattern` test. -/
def assertDateTime (v : JSValue) (path : String := "value") : Except JsErr Unit := do
  assertString v path
  if !DateTimePatternRE.fullmatch (jsToString v) then
    throw (.err (path ++ " must match DateString pattern"))

/-- `JSON-LD.ts` `assertType` for a single (non-array) value. -/
def assertTypeSingle (ty : JSValue) (path : String) : Except JsErr Unit :=
  assertString ty path

/-- `JSON-LD.ts` `assertType` (lines 48-58). -/
def assertType (ty : JSValue) (path : String) (allowMultiple : Bool := false)
    (nonEmpty : Bool := false) : Except JsErr Unit := do
  match allowMultiple, ty with
  | true, .arr elems =>
    assertArray ty path nonEmpty
    (List.range elems.length).forM (fun i =>
      assertTypeSingle (elems.getD i .undefined) (path ++ "[" ++ toString i ++ "]"))
  | _, _ => assertString ty path

/-- `JSON-LD.ts` `assertTypedObject` for a single (non-array) value. -/
def assertTypedObjectSingle (object : JSValue) (path : String) : Except JsErr Unit := do
  assertRecord object path true
  assertType (object.get "type") path true true

/-- `JSON-LD.ts` `assertTypedObject` (lines 62-73). -/
def assertTypedObject (object : JSValue) (path : String) (allowMultiple : Bool := false)
    (nonEmpty : Bool := false) : Except JsErr Unit := do
  match allowMultiple, object with
  | true, .arr elems =>
    assertArray object path nonEmpty
    (List.range elems.length).forM (fun i =>
      assertTypedObjectSingle (elems.getD i .undefined) (path ++ "[" ++ toString i ++ "]"))
  | _, _ => assertTypedObjectSingle object path

/-- `CredentialContext.ts` `isCredentialContextURI`. -/
def isCredentialContextURI (v : JSValue) : Bool :=
  jsStrictEq v (.str Helpers.ctxV1) || jsStrictEq v (.str Helpers.ctxV2)

/-- `CredentialContext.ts` `assertCredentialContext` (lines 116-123).  Its
options record reads `name`, while `Credential.ts` passes `path`, so the
messages always use the default label `context` there. -/
def assertCredentialContext (context : JSValue) (name : Option String := none) :
    Except JsErr Unit := do
  let nm := name.getD "context"
  match context with
  | .arr [] => throw (.err (nm ++ " must not be empty"))
  | .arr (c :: _) =>
    if !isCredentialContextURI c then
      throw (.err (nm ++ " must start with a credential context URI"))
  | _ => throw (.err (nm ++ " must be a string"))

/-- `CredentialContext.ts` `extractCredentialContextVersion` (lines
130-133): re-asserts the context, then maps the first entry through the
URI/version tables (1.0 or 2.0; the fallthrough is unreachable after the
assert). -/
def extractCredentialContextVersion (context : JSValue) : Except JsErr Nat := do
  assertCredentialContext context
  match context with
  | .arr (c :: _) => pure (if jsStrictEq c (.str Helpers.ctxV1) then 1 else 2)
  | _ => pure 0

/-- `Credential.ts` `assertCredentialType` (lines 18-23). -/
def assertCredentialType (ty : JSValue) (path : String := "type") : Except JsErr Unit := do
  assertType ty path true true
  if !includesSVZ (toArray ty) (.str "VerifiableCredential") then
    throw (.err (path ++ " must include VerifiableCredential"))

/-- `CredentialIssuer.ts` `assertCredentialIssuer` with both flags false:
just `assertAnyURI`. -/
def assertCredentialIssuerBase (env : JSEnv) (issuer : JSValue) (path : String) :
    Except JsErr Unit :=
  assertAnyURI env issuer path

/-- `assertCredentialIssuer` recursive call with only `allowRecord`
forwarded. -/
def assertCredentialIssuerRecord (env : JSEnv) (issuer : JSValue) (path : String)
    (allowRecord : Bool) : Except JsErr Unit :=
  if allowRecord && isRecord issuer then
    assertCredentialIssuerBase env (issuer.get "id") (path ++ ".id")
  else
    assertAnyURI env issuer path

/-- `CredentialIssuer.ts` `assertCredentialIssuer` (part_003 lines 32-43). -/
def assertCredentialIssuer (env : JSEnv) (issuer : JSValue) (path : String := "issuer")
    (allowRecord : Bool := false) (allowArray : Bool := false) : Except JsErr Unit := do
  match allowArray, issuer with
  | true, .arr elems =>
    if elems.length > 1 then
      throw (.err (path ++ " must not contain multiple items"))
    assertCredentialIssuerRecord env (elems.headD .undefined) (path ++ "[0]") allowRecord
  | _, _ =>
    if allowRecord && isRecord issuer then
      assertCredentialIssuerBase env (issuer.get "id") (path ++ ".id")
    else
      assertAnyURI env issuer path

/-- `CredentialSubject.ts` `assertCredentialSubject` for one subject. -/
def assertCredentialSubjectSingle (env : JSEnv) (subject : JSValue) (path : String) :
    Except JsErr Unit := do
  assertRecord subject path true
  if subject.hasKey "id" then
    assertAnyURI env (subject.get "id") (path ++ ".id")

/-- `CredentialSubject.ts` `assertCredentialSubject` (part_003 lines 74-86). -/
def assertCredentialSubject (env : JSEnv) (subject : JSValue) (path : String := "subject")
    (allowMultiple : Bool := false) : Except JsErr Unit := do
  match allowMultiple, subject with
  | true, .arr elems =>
    assertArray subject path true
    (List.range elems.length).forM (fun i =>
      assertCredentialSubjectSingle env (elems.getD i .undefined)
        (path ++ "[" ++ toString i ++ "]"))
  | _, _ => assertCredentialSubjectSingle env subject path

/-- `CredentialStatus.ts` `assertCredentialStatus` for one status. -/
def assertCredentialStatusSingle (env : JSEnv) (status : JSValue) (path : String) :
    Except JsErr Unit := do
  assertRecord status path
  assertType (status.get "type") (path ++ ".type") true true
  if status.hasKey "id" then
    assertAnyURI env (status.get "id") (path ++ ".id")

/-- `CredentialStatus.ts` `assertCredentialStatus` (part_003 lines 53-65). -/
def assertCredentialStatus (env : JSEnv) (status : JSValue) (path : String := "status")
    (allowMultiple : Bool := false) (nonEmpty : Bool := false) : Except JsErr Unit := do
  match allowMultiple, status with
  | true, .arr elems =>
    assertArray status path nonEmpty
    (List.range elems.length).forM (fun i =>
      assertCredentialStatusSingle env (elems.getD i .undefined)
        (path ++ "[" ++ toString i ++ "]"))
  | _, _ => assertCredentialStatusSingle env status path

/-- `CredentialEvidence.ts` `assertCredentialEvidence` for one item. -/
def assertCredentialEvidenceSingle (env : JSEnv) (evidence : JSValue) (path : String) :
    Except JsErr Unit := do
  assertRecord evidence path true
  assertType (evidence.get "type") (path ++ ".type") true true
  if evidence.hasKey "id" then
    assertAnyURI env (evidence.get "id") (path ++ ".id")

/-- `CredentialEvidence.ts` `assertCredentialEvidence` (part_003 lines 12-25). -/
def assertCredentialEvidence (env : JSEnv) (evidence : JSValue) (path : String := "evidence")
    (allowMultiple : Bool := false) : Except JsErr Unit := do
  match allowMultiple, evidence with
  | true, .arr elems =>
    assertArray evidence path true
    (List.range elems.length).forM (fun i =>
      assertCredentialEvidenceSingle env (elems.getD i .undefined)
        (path ++ "[" ++ toString i ++ "]"))
  | _, _ => assertCredentialEvidenceSingle env evidence path

/-- `Credential.ts` `assertCredentialValidDate` (lines 69-79): format check
first; bounds only when a `min`/`max` `Date` was passed (in `verify` mode).
The outer `Option` is presence of the argument, the inner `JSDate` its
possibly-invalid value; comparisons against an invalid date are `false`, so
the unreachable `toISOString` of an invalid bound is never demanded. -/
def assertCredentialValidDate (env : JSEnv) (value : JSValue) (path : String := "value")
    (min max : Option JSDate := none) : Except JsErr Unit := do
  assertDateTime value path
  if min.isSome || max.isSome then
    let date := jsNewDate env value
    (match min with
     | some m =>
       if jsLtB date m then
         throw (.err (path ++ " must be not be before " ++ isoOfOpt env m))
       else pure ()
     | none => pure ())
    (match max with
     | some m =>
       if jsLtB m date then
         throw (.err (path ++ " must be not be after " ++ isoOfOpt env m))
       else pure ()
     | none => pure ())

/-- The `_now` computation of `Credential.ts` `assertCredential` (line 46):
`new Date(options?.now ?? Date.now())`. -/
def nowValueModel (env : JSEnv) : NowParam → JSDate
  | .absent => some env.nowMs
  | .str s => env.parseDate s
  | .date d => d

/-- `Credential.ts` `assertCredential` (lines 43-67). -/
def assertCredential (env : JSEnv) (credential : JSValue) (path : String := "credential")
    (mode : String := "verify") (now : NowParam := .absent) : Except JsErr Unit := do
  let _now := nowValueModel env now
  assertRecord credential path
  assertCredentialContext (credential.get "@context")
  assertCredentialType (credential.get "type") (path ++ ".type")
  if credential.hasKey "id" then
    assertAnyURI env (credential.get "id") (path ++ ".id")
  assertCredentialIssuer env (credential.get "issuer") (path ++ ".issuer") true true
  assertCredentialSubject env (credential.get "credentialSubject")
    (path ++ ".credentialSubject") true
  if credential.hasKey "credentialStatus" then
    assertCredentialStatus env (credential.get "credentialStatus")
      (path ++ ".credentialStatus") true
  let version ← extractCredentialContextVersion (credential.get "@context")
  (match version with
   | 1 => do
     assertCredentialValidDate env (credential.get "issuanceDate")
       (path ++ ".issuanceDate") none (if mode = "verify" then some _now else none)
     if credential.hasKey "expirationDate" then
       assertCredentialValidDate env (credential.get "expirationDate")
         (path ++ ".expirationDate") (if mode = "verify" then some _now else none) none
   | 2 => do
     if credential.hasKey "validFrom" then
       assertCredentialValidDate env (credential.get "validFrom")
         (path ++ ".validFrom") none (if mode = "verify" then some _now else none)
     if credential.hasKey "validUntil" then
       assertCredentialValidDate env (credential.get "validUntil")
         (path ++ ".validUntil") (if mode = "verify" then some _now else none) none
   | _ => pure ())
  if credential.hasKey "evidence" then
    assertCredentialEvidence env (credential.get "evidence") (path ++ ".evidence") true
  if credential.hasKey "termsOfUse" then
    assertTypedObject (credential.get "termsOfUse") (path ++ ".termsOfUse") true
  if credential.hasKey "proof" then
    assertTypedObject (credential.get "proof") (path ++ ".proof") true

/-- `LinkedData.ts` `assertLinkedDataSignature` (part_004 lines 54-61). -/
def assertLinkedDataSignature (suite : JSValue) (path : String := "suite") :
    Except JsErr Unit := do
  assertObject suite path
  if (suite.get "sign").jsTypeof ≠ "function" then
    throw (.type (path ++ ".sign must be a function"))
  if (suite.get "canonize").jsTypeof ≠ "function" then
    throw (.type (path ++ ".canonize must be a function"))

/-- `String.prototype.replace` with the regex `\.\d*(?=Z)` and an empty
replacement, as used by `VerifiableCredential.ts` (part_005) `issue`: the
first `.`-plus-digits run that is immediately followed by `Z` is removed
(digits and `Z` are disjoint classes, so the greedy scan is exact). -/
def stripFracAux : List Char → List Char
  | [] => []
  | c :: rest =>
    if c = '.' then
      match rest.dropWhile isDigitCh with
      | 'Z' :: tail => 'Z' :: tail
      | _ => c :: stripFracAux rest
    else c :: stripFracAux rest

/-- `toISOString().replace(/\.\d*(?=Z)/, '')`. -/
def stripFraction (s : String) : String :=
  String.mk (stripFracAux s.toList)

/-- Options of part_005 `issue`. -/
structure IssueModelOptions where
  credential : JSValue
  suite : JSValue
  now : NowParam := .absent

/-- `VerifiableCredential.ts` (part_005) `issue` (lines 14-24).  Note that
for a version-1.0 context the `issuanceDate` is *always* assigned from the
current instant (`Object.assign`), even when the credential already carries
one; `_now.toISOString()` on an invalid `Date` throws a `RangeError`. -/
def issue (env : JSEnv) (options : IssueModelOptions) : Except JsErr JSValue := do
  let _now : JSDate :=
    match options.now with
    | .absent => some env.nowMs
    | .str s => if s = "" then some env.nowMs else env.parseDate s
    | .date d => d
  assertRecord options.credential
  assertLinkedDataSignature options.suite
  let version ← extractCredentialContextVersion (options.credential.get "@context")
  let credential ←
    if version == 1 then
      match _now with
      | some n =>
        pure (options.credential.set "issuanceDate" (.str (stripFraction (env.isoString n))))
      | none => throw (.range "Invalid time value")
    else
      pure options.credential
  assertCredential env credential "credential" "issue" (.date _now)
  return env.jsigsSign credential

end Model

/-!
## `CredentialIssuancePurpose.ts`
-/

/-- Result of the external base check `AssertionProofPurpose.validate`
(from `jsonld-signatures`): validity flag, error message when invalid, and
the authorized controller document. -/
structure BaseValidateResult where
  valid : Bool
  error : String := ""
  controller : JSValue := .undefined

/-- Environment of `CredentialIssuancePurpose.validate`: the outcome of the
delegated `super.validate` call for the proof under consideration. -/
structure PurposeEnv where
  baseValidate : BaseValidateResult

/-- The result shape `{valid, error?}` returned by `validate`. -/
structure ValidateResult where
  valid : Bool
  error : Option String := none
deriving DecidableEq, Repr

/-- The issuer-identifier selection of `CredentialIssuancePurpose.validate`
(line 69): `typeof issuer[0] === 'string' ? issuer[0] : issuer[0].id`. -/
def issuerIdOf (v : JSValue) : JSValue :=
  match v with
  | .str s => .str s
  | v => v.get "id"

/-- `CredentialIssuancePurpose.validate` (lines 47-81): delegate to the
base purpose check, then require a non-empty `issuer` whose identifier
strictly equals `result.controller.id`; any thrown error is caught and
returned as `{valid: false, error}`. -/
def credentialIssuancePurposeValidate (env : PurposeEnv) (document : JSValue) :
    ValidateResult :=
  let attempt : Except String Unit := do
    let result := env.baseValidate
    if !result.valid then
      throw result.error
    let issuer := getValues document "issuer"
    if issuer.length == 0 then
      throw "Credential issuer is required."
    let issuerId := issuerIdOf (issuer.headD .undefined)
    if !(jsStrictEq (result.controller.get "id") issuerId) then
      throw "Credential issuer must match the verification method controller."
    pure ()
  match attempt with
  | .ok _ => { valid := true }
  | .error e => { valid := false, error := some e }

/-!
## Support lemmas
-/

theorem except_throw {ε α : Type} (e : ε) :
    (throw e : Except ε α) = .error e := rfl

theorem except_pure {ε α : Type} (a : α) :
    (pure a : Except ε α) = .ok a := rfl

theorem except_bind_ok {ε α β : Type} (a : α) (f : α → Except ε β) :
    (Except.ok a : Except ε α) >>= f = f a := rfl

theorem except_bind_error {ε α β : Type} (e : ε) (f : α → Except ε β) :
    (Except.error e : Except ε α) >>= f = .error e := rfl

theorem except_map_ok {ε α β : Type} (a : α) (f : α → β) :
    f <$> (Except.ok a : Except ε α) = .ok (f a) := rfl

theorem except_map_error {ε α β : Type} (e : ε) (f : α → β) :
    f <$> (Except.error e : Except ε α) = .error e := rfl

/-- A key absent from an object yields `undefined` on read. -/
theorem get_eq_undef_of_hasKey_false {v : JSValue} {k : String}
    (h : v.hasKey k = false) : v.get k = .undefined := by
  cases v with
  | obj fields =>
    simp only [JSValue.hasKey] at h
    cases hl : fields.lookup k with
    | none => simp [JSValue.get, hl]
    | some w => rw [hl] at h; simp at h
  | undefined => rfl
  | null => rfl
  | bool b => rfl
  | num n => rfl
  | str s => rfl
  | arr xs => rfl
  | func n => rfl

/-- A suffix of the middle section extends to a suffix of a surrounding
concatenation. -/
theorem suffix_of_middle {α : Type} {u mid : List α} (pre post : List α)
    (h : u <:+ mid) : u ++ post <:+ pre ++ mid ++ post := by
  obtain ⟨w, hw⟩ := h
  exact ⟨pre ++ w, by simp [← hw, List.append_assoc]⟩

/-- Unanchored `test` is monotone under embedding the string in a larger
one: whatever `dateRegex`-style pattern matches somewhere in `mid` also
matches somewhere in `pre ++ mid ++ post`. -/
theorem RE.test_of_middle (re : RE) (pre mid post : String)
    (h : re.test mid = true) : re.test (pre ++ mid ++ post) = true := by
  unfold RE.test at h ⊢
  rw [List.any_eq_true] at h ⊢
  obtain ⟨t, ht, hmatch⟩ := h
  rw [List.mem_tails] at ht
  have hne : re.run t ≠ [] := by
    intro hnil
    rw [hnil] at hmatch
    simp [List.isEmpty] at hmatch
  obtain ⟨rem, hrem⟩ := List.exists_mem_of_ne_nil _ hne
  refine ⟨t ++ post.toList, ?_, ?_⟩
  · rw [List.mem_tails]
    have hsplit : (pre ++ mid ++ post).toList = pre.toList ++ mid.toList ++ post.toList := by
      simp [String.toList]
    rw [hsplit]
    exact suffix_of_middle pre.toList post.toList ht
  · have hext := RE.run_append re hrem post.toList
    cases hrun : re.run (t ++ post.toList) with
    | nil =>
      rw [hrun] at hext
      exact absurd hext (List.not_mem_nil _)
    | cons a as => simp [List.isEmpty]

/-!
## Claim theorems
-/

/-- C10: `_checkPresentation` wraps a non-array `@context` into a
one-element array before the first-position context check, so a record
whose `@context` is a bare recognized credentials-context URI string and
whose `type` includes `"VerifiablePresentation"` passes without throwing,
while the credential path rejects the bare string: `helpers.ts`
`assertCredentialContext` (hence `_checkCredential`) indexes the string
itself, and `CredentialContext.ts` `assertCredentialContext` requires an
array. -/
theorem checkPresentation_accepts_string_context
    (p c : JSValue) (u : String) (env : JSEnv) (now : NowParam) (mode : String)
    (hu : u = Helpers.ctxV1 ∨ u = Helpers.ctxV2)
    (hpctx : p.get "@context" = .str u)
    (hptype : includesSVZ (getValues p "type") (.str "VerifiablePresentation") = true)
    (hcctx : c.get "@context" = .str u) :
    VC._checkPresentation p = .ok () ∧
    (∃ e, Helpers.assertCredentialContext (.str u) = .error e) ∧
    (∃ e, VC._checkCredential env c now mode = .error e) ∧
    (∃ e, Model.assertCredentialContext (.str u) none = .error e) := by
  have hwrap : Helpers.assertCredentialContext (.arr [.str u]) = .ok () := by
    rcases hu with h | h <;> subst h <;> rfl
  have hbare : ∃ e, Helpers.assertCredentialContext (.str u) = .error e := by
    rcases hu with h | h <;> subst h <;> exact ⟨_, rfl⟩
  refine ⟨?_, hbare, ?_, ?_⟩
  · simp only [VC._checkPresentation, hpctx]
    simp only [except_bind_ok, hwrap, hptype]
    rfl
  · obtain ⟨e, he⟩ := hbare
    refine ⟨e, ?_⟩
    simp only [VC._checkCredential, hcctx, he, except_bind_error]
  · rcases hu with h | h <;> subst h <;> exact ⟨_, rfl⟩

/-- C10 witness: a concrete presentation with a bare-string `@context`. -/
theorem checkPresentation_accepts_string_context_witness :
    VC._checkPresentation (.obj [("@context", .str Helpers.ctxV1),
      ("type", .arr [.str "VerifiablePresentation"])]) = .ok () ∧
    (∃ e, Helpers.assertCredentialContext (.str Helpers.ctxV1) = .error e) ∧
    (∃ e, VC._checkCredential { } (.obj [("@context", .str Helpers.ctxV1)])
      .absent "verify" = .error e) ∧
    (∃ e, Model.assertCredentialContext (.str Helpers.ctxV1) none = .error e) :=
  checkPresentation_accepts_string_context
    (.obj [("@context", .str Helpers.ctxV1),
      ("type", .arr [.str "VerifiablePresentation"])])
    (.obj [("@context", .str Helpers.ctxV1)])
    Helpers.ctxV1 { } .absent "verify" (Or.inl rfl) rfl (by decide) rfl

/-- C7: `CredentialIssuancePurpose.validate` returns `{valid: false, error}`
whenever the document's issuer is missing/empty or, with the base check
succeeding, `result.controller.id` differs from the issuer's identifier
(string or `id` field); a failing base check also yields `{valid: false}`
with the base error; `{valid: true}` is returned exactly when the base
check succeeds and the controller id equals the issuer id (last conjunct:
the only-if direction for an arbitrary document). -/
theorem credentialIssuancePurpose_validate_binds_issuer
    (env1 env2 env3 env4 env5 : PurposeEnv) (doc1 doc2 doc4 doc5 : JSValue)
    (iv2 iv3 : JSValue) (rest2 rest3 : List JSValue) (doc3 : JSValue)
    (h1v : env1.baseValidate.valid = true)
    (h1i : getValues doc1 "issuer" = [])
    (h2v : env2.baseValidate.valid = true)
    (h2i : getValues doc2 "issuer" = iv2 :: rest2)
    (h2ne : jsStrictEq (env2.baseValidate.controller.get "id") (issuerIdOf iv2) = false)
    (h3v : env3.baseValidate.valid = true)
    (h3i : getValues doc3 "issuer" = iv3 :: rest3)
    (h3eq : jsStrictEq (env3.baseValidate.controller.get "id") (issuerIdOf iv3) = true)
    (h4v : env4.baseValidate.valid = false) :
    credentialIssuancePurposeValidate env1 doc1 =
      { valid := false, error := some "Credential issuer is required." } ∧
    credentialIssuancePurposeValidate env2 doc2 =
      { valid := false,
        error := some "Credential issuer must match the verification method controller." } ∧
    credentialIssuancePurposeValidate env3 doc3 = { valid := true, error := none } ∧
    credentialIssuancePurposeValidate env4 doc4 =
      { valid := false, error := some env4.baseValidate.error } ∧
    ((credentialIssuancePurposeValidate env5 doc5).valid = true →
      env5.baseValidate.valid = true ∧
      getValues doc5 "issuer" ≠ [] ∧
      jsStrictEq (env5.baseValidate.controller.get "id")
        (issuerIdOf ((getValues doc5 "issuer").headD .undefined)) = true) := by
  refine ⟨?_, ?_, ?_, ?_, ?_⟩
  · simp [credentialIssuancePurposeValidate, h1v, h1i, except_bind_ok, except_throw,
      except_bind_error]
  · simp [credentialIssuancePurposeValidate, h2v, h2i, h2ne, except_bind_ok, except_throw,
      except_bind_error, except_pure]
  · simp [credentialIssuancePurposeValidate, h3v, h3i, h3eq, except_bind_ok, except_throw,
      except_bind_error, except_pure]
  · simp [credentialIssuancePurposeValidate, h4v, except_bind_error, except_throw]
  · intro hvalid
    by_cases hb : env5.baseValidate.valid
    · by_cases hi : getValues doc5 "issuer" = []
      · simp [credentialIssuancePurposeValidate, hb, hi, except_throw, except_bind_error,
          except_bind_ok] at hvalid
      · cases hil : getValues doc5 "issuer" with
        | nil => exact absurd hil hi
        | cons iv rest =>
          by_cases heq : jsStrictEq (env5.baseValidate.controller.get "id") (issuerIdOf iv) = true
          · exact ⟨hb, by simp [hil], by simp [hil, heq]⟩
          · simp [credentialIssuancePurposeValidate, hb, hil, heq, except_throw,
              except_bind_error, except_bind_ok, except_pure] at hvalid
    · simp [credentialIssuancePurposeValidate, Bool.of_not_eq_true hb, except_throw,
        except_bind_error] at hvalid

/-- C7 witness: concrete base-check outcomes and documents for each of the
four scenarios. -/
theorem credentialIssuancePurpose_validate_binds_issuer_witness :
    credentialIssuancePurposeValidate
      { baseValidate := { valid := true, controller := .obj [("id", .str "did:ex:1")] } }
      (.obj []) =
      { valid := false, error := some "Credential issuer is required." } ∧
    credentialIssuancePurposeValidate
      { baseValidate := { valid := true, controller := .obj [("id", .str "did:ex:other")] } }
      (.obj [("issuer", .str "did:ex:1")]) =
      { valid := false,
        error := some "Credential issuer must match the verification method controller." } ∧
    credentialIssuancePurposeValidate
      { baseValidate := { valid := true, controller := .obj [("id", .str "did:ex:1")] } }
      (.obj [("issuer", .str "did:ex:1")]) = { valid := true, error := none } ∧
    credentialIssuancePurposeValidate
      { baseValidate := { valid := false, error := "sig bad" } } (.obj []) =
      { valid := false,
        error := some (BaseValidateResult.error
          { valid := false, error := "sig bad" : BaseValidateResult }) } ∧
    ((credentialIssuancePurposeValidate
        { baseValidate := { valid := true, controller := .obj [("id", .str "did:ex:1")] } }
        (.obj [("issuer", .str "did:ex:1")])).valid = true →
      (true : Bool) = true ∧
      getValues (.obj [("issuer", .str "did:ex:1")]) "issuer" ≠ [] ∧
      jsStrictEq ((JSValue.obj [("id", .str "did:ex:1")]).get "id")
        (issuerIdOf ((getValues (.obj [("issuer", .str "did:ex:1")]) "issuer").headD .undefined))
        = true) :=
  credentialIssuancePurpose_validate_binds_issuer
    { baseValidate := { valid := true, controller := .obj [("id", .str "did:ex:1")] } }
    { baseValidate := { valid := true, controller := .obj [("id", .str "did:ex:other")] } }
    { baseValidate := { valid := true, controller := .obj [("id", .str "did:ex:1")] } }
    { baseValidate := { valid := false, error := "sig bad" } }
    { baseValidate := { valid := true, controller := .obj [("id", .str "did:ex:1")] } }
    (.obj []) (.obj [("issuer", .str "did:ex:1")]) (.obj [])
    (.obj [("issuer", .str "did:ex:1")])
    (.str "did:ex:1") (.str "did:ex:1") [] []
    (.obj [("issuer", .str "did:ex:1")])
    rfl rfl rfl rfl (by decide) rfl rfl (by decide) rfl

/-- Witness material: a well-formed version-1.0 credential and an
environment under which it passes `_checkCredential`. -/
def wIssuerUrl : String := "https://example.edu/issuers/14"

/-- Witness environment: parses the sample date and resolves the sample
issuer URL. -/
def wEnvBase : JSEnv :=
  { nowMs := 5,
    parseDate := fun s => if s = "2020-01-01T00:00:00Z" then some 0 else none,
    urlProtocol := fun s => if s = wIssuerUrl then some "https:" else none }

/-- Witness credential (version 1.0, no `credentialStatus`). -/
def wCred : JSValue :=
  .obj [("@context", .arr [.str Helpers.ctxV1]),
    ("type", .arr [.str "VerifiableCredential"]),
    ("issuer", .str wIssuerUrl),
    ("credentialSubject", .obj [("name", .str "alice")]),
    ("issuanceDate", .str "2020-01-01T00:00:00Z")]

/-- Witness credential with a `credentialStatus`. -/
def wCredStatus : JSValue :=
  .obj [("@context", .arr [.str Helpers.ctxV1]),
    ("type", .arr [.str "VerifiableCredential"]),
    ("issuer", .str wIssuerUrl),
    ("credentialSubject", .obj [("name", .str "alice")]),
    ("issuanceDate", .str "2020-01-01T00:00:00Z"),
    ("credentialStatus", .obj [("type", .str "StatusList2021")])]

/-- C4: in `_verifyCredential`, a failed cryptographic result is returned
unchanged with the status checker never consulted (its `statusResult` field
is whatever `jsigs.verify` produced), while a successful cryptographic
result on a credential carrying `credentialStatus` with a supplied
`checkStatus` gets the status result attached; a negative status flips
`verified` to `false` while the `results` field of the cryptographic result
is preserved. -/
theorem verifyCredential_status_short_circuit_and_flip
    (env1 : JSEnv) (o1 : VC.VerifyCredentialOptions)
    (env2 : JSEnv) (o2 : VC.VerifyCredentialOptions) (sr : StatusResult)
    (h1chk : VC._checkCredential env1 o1.credential o1.now = .ok ())
    (h1cfg : ((o1.credential.get "credentialStatus").truthy && o1.checkStatus.isNone) = false)
    (h1v : (env1.jsigsVerify o1.credential).verified = false)
    (h2chk : VC._checkCredential env2 o2.credential o2.now = .ok ())
    (h2st : (o2.credential.get "credentialStatus").truthy = true)
    (h2cs : o2.checkStatus = some sr)
    (h2v : (env2.jsigsVerify o2.credential).verified = true)
    (h2sv : sr.verified = false) :
    VC._verifyCredential env1 o1 = .ok (env1.jsigsVerify o1.credential) ∧
    VC._verifyCredential env2 o2 =
      .ok { env2.jsigsVerify o2.credential with
            statusResult := some sr, verified := false } ∧
    ({ env2.jsigsVerify o2.credential with
       statusResult := some sr, verified := false : VerifyResultR }).results =
      (env2.jsigsVerify o2.credential).results := by
  refine ⟨?_, ?_, rfl⟩
  · simp [VC._verifyCredential, h1chk, h1cfg, h1v, except_bind_ok, except_throw,
      except_bind_error, except_pure]
  · simp [VC._verifyCredential, h2chk, h2st, h2cs, h2v, h2sv, except_bind_ok, except_throw,
      except_bind_error, except_pure]

/-- C4 witness: concrete credentials and suite outcomes for both
scenarios. -/
theorem verifyCredential_status_short_circuit_and_flip_witness :
    VC._verifyCredential
      { wEnvBase with jsigsVerify := fun _ => { verified := false, results := [.str "r1"] } }
      { credential := wCred } =
      .ok ({ wEnvBase with
        jsigsVerify := fun _ => { verified := false, results := [.str "r1"] } }.jsigsVerify
          wCred) ∧
    VC._verifyCredential
      { wEnvBase with jsigsVerify := fun _ => { verified := true, results := [.str "r2"] } }
      { credential := wCredStatus, checkStatus := some { verified := false } } =
      .ok { ({ wEnvBase with
          jsigsVerify := fun _ => { verified := true, results := [.str "r2"] } }.jsigsVerify
            wCredStatus) with
        statusResult := some { verified := false }, verified := false } ∧
    ({ ({ wEnvBase with
        jsigsVerify := fun _ => { verified := true, results := [.str "r2"] } }.jsigsVerify
          wCredStatus) with
      statusResult := some { verified := false }, verified := false : VerifyResultR }).results =
      ({ wEnvBase with
        jsigsVerify := fun _ => { verified := true, results := [.str "r2"] } }.jsigsVerify
          wCredStatus).results :=
  verifyCredential_status_short_circuit_and_flip
    { wEnvBase with jsigsVerify := fun _ => { verified := false, results := [.str "r1"] } }
    { credential := wCred }
    { wEnvBase with jsigsVerify := fun _ => { verified := true, results := [.str "r2"] } }
    { credential := wCredStatus, checkStatus := some { verified := false } }
    { verified := false }
    rfl rfl rfl rfl rfl rfl rfl rfl

/-- Witness presentation embedding one credential. -/
def wPres1 : JSValue :=
  .obj [("@context", .arr [.str Helpers.ctxV1]),
    ("type", .arr [.str "VerifiablePresentation"]),
    ("verifiableCredential", .arr [wCred])]

/-- Witness presentation with no embedded credentials. -/
def wPres0 : JSValue :=
  .obj [("@context", .arr [.str Helpers.ctxV1]),
    ("type", .arr [.str "VerifiablePresentation"])]

/-- C8: with `unsignedPresentation` set, `_verifyPresentation` returns
right after the embedded-credential batch — no challenge or purpose is
consulted (the `challenge` option is an arbitrary binder here), the
presentation proof is not verified (`presentationResult`/`error` are
absent), and `verified` is the conjunction of the returned
`credentialResults` (`true` when the presentation embeds no credentials,
second conjunct). -/
theorem verifyPresentation_unsigned_skips_proof
    (env env2 : JSEnv) (o o2 : VC.VerifyPresentationOptions)
    (hchk : VC._checkPresentation o.presentation = .ok ())
    (huns : o.unsignedPresentation = true)
    (hchk2 : VC._checkPresentation o2.presentation = .ok ())
    (huns2 : o2.unsignedPresentation = true)
    (hempty : getValues o2.presentation "verifiableCredential" = []) :
    (∃ crs, VC._verifyPresentation env o =
      .ok { verified := crs.all (fun r => r.verified),
            results := some [o.presentation],
            presentationResult := none,
            credentialResults := some crs,
            error := none }) ∧
    VC._verifyPresentation env2 o2 =
      .ok { verified := true, results := some [o2.presentation],
            presentationResult := none, credentialResults := some [], error := none } := by
  constructor
  · cases hcr : getValues o.presentation "verifiableCredential" with
    | nil =>
      refine ⟨[], ?_⟩
      simp [VC._verifyPresentation, hchk, hcr, huns, except_bind_ok, except_pure]
    | cons c cs =>
      refine ⟨(((c :: cs).map (fun credential => VC.verifyCredential env
          { credential := credential, checkStatus := o.checkStatus, now := o.now })).zip
          (c :: cs)).map (fun rc => { rc.1 with credentialId := rc.2.get "id" }), ?_⟩
      simp [VC._verifyPresentation, hchk, hcr, huns, except_bind_ok, except_pure]
  · simp only [VC._verifyPresentation, hchk2, hempty, huns2, except_bind_ok, except_pure]
    rfl

/-- C8 witness: an unsigned presentation with one embedded credential and
one with none, with no challenge supplied. -/
theorem verifyPresentation_unsigned_skips_proof_witness :
    (∃ crs, VC._verifyPresentation wEnvBase
      { presentation := wPres1, unsignedPresentation := true } =
      .ok { verified := crs.all (fun r => r.verified),
            results := some [wPres1],
            presentationResult := none,
            credentialResults := some crs,
            error := none }) ∧
    VC._verifyPresentation wEnvBase
      { presentation := wPres0, unsignedPresentation := true } =
      .ok { verified := true, results := some [wPres0],
            presentationResult := none, credentialResults := some [], error := none } :=
  verifyPresentation_unsigned_skips_proof wEnvBase wEnvBase
    { presentation := wPres1, unsignedPresentation := true }
    { presentation := wPres0, unsignedPresentation := true }
    rfl rfl rfl rfl rfl

/-- Index/length behaviour of the tag-by-position step of
`_verifyPresentation`. -/
theorem map_zip_map_getD {α β γ : Type} (f : α → β) (g : β × α → γ)
    (xs : List α) (i : Nat) (d : γ) (dx : α) (hi : i < xs.length) :
    (((xs.map f).zip xs).map g).getD i d = g (f (xs.getD i dx), xs.getD i dx) := by
  induction xs generalizing i with
  | nil => simp at hi
  | cons x xs ih =>
    cases i with
    | zero => simp
    | succ j =>
      simp only [List.map_cons, List.zip_cons_cons, List.getD_cons_succ]
      exact ih j (by simpa using hi)

theorem map_zip_map_length {α β γ : Type} (f : α → β) (g : β × α → γ) (xs : List α) :
    (((xs.map f).zip xs).map g).length = xs.length := by
  simp

/-- C2: on a presentation embedding `n` credentials, `_verifyPresentation`
returns a `credentialResults` list of length `n` in which entry `i` is the
`verifyCredential` outcome of input credential `i` tagged with that
credential's `id` (`Promise.all` keeps the order of `credentials.map`), and
the overall `verified` flag is `false` whenever some entry is unverified. -/

theorem verifyPresentation_positional_credential_results (env : JSEnv) (o : VC.VerifyPresentationOptions)
    (hchk : VC._checkPresentation o.presentation = .ok ())
    (hbranch : o.unsignedPresentation = true ∨ o.presentationPurpose.isSome = true ∨
      VC.challengeTruthy o.challenge = true) :
    ∃ r, VC._verifyPresentation env o = .ok r ∧
      ∃ crs, r.credentialResults = some crs ∧
        crs.length = (getValues o.presentation "verifiableCredential").length ∧
        (∀ i, i < crs.length →
          crs.getD i { verified := false } =
            { VC.verifyCredential env
                { credential := (getValues o.presentation "verifiableCredential").getD i .undefined,
                  checkStatus := o.checkStatus, now := o.now } with
              credentialId :=
                ((getValues o.presentation "verifiableCredential").getD i .undefined).get "id" }) ∧
        (crs.all (fun x => x.verified) = false → r.verified = false) := by
  have hcond : o.unsignedPresentation = false →
      (o.presentationPurpose.isNone && !VC.challengeTruthy o.challenge) = false := by
    intro hf
    rcases hbranch with h | h | h
    · rw [hf] at h; exact absurd h (by simp)
    · cases hp : o.presentationPurpose with
      | none => rw [hp] at h; simp at h
      | some u => simp [Option.isNone, hp]
    · simp [h]
  cases hcr : getValues o.presentation "verifiableCredential" with
  | nil =>
    by_cases huns : o.unsignedPresentation
    · refine ⟨{ verified := true
                results := some [o.presentation]
                presentationResult := none
                credentialResults := some []
                error := none }, ?_, [], rfl, by simp [hcr], by simp, ?_⟩
      · simp [VC._verifyPresentation, hchk, hcr, huns, except_bind_ok, except_pure]
      · intro hall; simp at hall
    · have hc := hcond (Bool.of_not_eq_true huns)
      refine ⟨{ presentationResult := some (env.jsigsVerify o.presentation)
                verified := (env.jsigsVerify o.presentation).verified
                credentialResults := some []
                results := none
                error := (env.jsigsVerify o.presentation).error }, ?_, [], rfl,
        by simp [hcr], by simp, ?_⟩
      · simp only [VC._verifyPresentation, hchk, hcr, Bool.of_not_eq_true huns, hc,
          except_bind_ok, except_pure]
        simp
      · intro hall; simp at hall
  | cons c cs =>
    have hlen : ((((c :: cs).map (fun credential => VC.verifyCredential env
        { credential := credential, checkStatus := o.checkStatus, now := o.now })).zip
        (c :: cs)).map (fun rc => { rc.1 with credentialId := rc.2.get "id" })).length =
        (c :: cs).length := map_zip_map_length _ _ _
    have hidx : ∀ i, i < ((((c :: cs).map (fun credential => VC.verifyCredential env
        { credential := credential, checkStatus := o.checkStatus, now := o.now })).zip
        (c :: cs)).map (fun rc => { rc.1 with credentialId := rc.2.get "id" })).length →
        ((((c :: cs).map (fun credential => VC.verifyCredential env
          { credential := credential, checkStatus := o.checkStatus, now := o.now })).zip
          (c :: cs)).map (fun rc => { rc.1 with credentialId := rc.2.get "id" })).getD i
            { verified := false } =
          { VC.verifyCredential env
              { credential := (c :: cs).getD i .undefined,
                checkStatus := o.checkStatus, now := o.now } with
            credentialId := ((c :: cs).getD i .undefined).get "id" } := by
      intro i hi
      rw [hlen] at hi
      exact map_zip_map_getD _ _ _ i _ .undefined hi
    by_cases huns : o.unsignedPresentation
    · have hres : VC._verifyPresentation env o = .ok
          { verified := ((((c :: cs).map (fun credential => VC.verifyCredential env { credential := credential, checkStatus := o.checkStatus, now := o.now })).zip (c :: cs)).map
                (fun rc => { rc.1 with credentialId := rc.2.get "id" })).all
                (fun x => x.verified)
            results := some [o.presentation]
            presentationResult := none
            credentialResults := some ((((c :: cs).map (fun credential => VC.verifyCredential env { credential := credential, checkStatus := o.checkStatus, now := o.now })).zip (c :: cs)).map
                (fun rc => { rc.1 with credentialId := rc.2.get "id" }))
            error := none } := by
        simp only [VC._verifyPresentation, hchk, hcr, huns, except_bind_ok, except_pure]
        simp
      refine ⟨_, hres, _, rfl, by rw [hlen], by simpa [hcr] using hidx, ?_⟩
      intro hall
      dsimp only
      exact hall
    · have hc := hcond (Bool.of_not_eq_true huns)
      have hres : VC._verifyPresentation env o = .ok
          { verified := (((((c :: cs).map (fun credential => VC.verifyCredential env { credential := credential, checkStatus := o.checkStatus, now := o.now })).zip (c :: cs)).map
                (fun rc => { rc.1 with credentialId := rc.2.get "id" })).all
                (fun x => x.verified)) && (env.jsigsVerify o.presentation).verified
            results := none
            presentationResult := some (env.jsigsVerify o.presentation)
            credentialResults := some ((((c :: cs).map (fun credential => VC.verifyCredential env { credential := credential, checkStatus := o.checkStatus, now := o.now })).zip (c :: cs)).map
                (fun rc => { rc.1 with credentialId := rc.2.get "id" }))
            error := (env.jsigsVerify o.presentation).error } := by
        simp only [VC._verifyPresentation, hchk, hcr, Bool.of_not_eq_true huns, hc,
          except_bind_ok, except_pure, Bool.not_false, if_false]
        simp
      refine ⟨_, hres, _, rfl, by rw [hlen], by simpa [hcr] using hidx, ?_⟩
      intro hall
      dsimp only
      rw [hall]
      simp

/-- A credential missing `issuer` (fails verification). -/
def wCredBad : JSValue :=
  .obj [("@context", .arr [.str Helpers.ctxV1]),
    ("type", .arr [.str "VerifiableCredential"]),
    ("credentialSubject", .obj [("name", .str "bob")]),
    ("issuanceDate", .str "2020-01-01T00:00:00Z")]

/-- Witness presentation with two embedded credentials, one valid and one
invalid. -/
def wPres2 : JSValue :=
  .obj [("@context", .arr [.str Helpers.ctxV1]),
    ("type", .arr [.str "VerifiablePresentation"]),
    ("verifiableCredential", .arr [wCred, wCredBad])]

/-- C2 witness: the two-credential scenario (one valid, one missing its
issuer) on an unsigned presentation. -/
theorem verifyPresentation_positional_credential_results_witness :
    ∃ r, VC._verifyPresentation
      { wEnvBase with jsigsVerify := fun _ => { verified := true } }
      { presentation := wPres2, unsignedPresentation := true } = .ok r ∧
      ∃ crs, r.credentialResults = some crs ∧
        crs.length = (getValues wPres2 "verifiableCredential").length ∧
        (∀ i, i < crs.length →
          crs.getD i { verified := false } =
            { VC.verifyCredential
                { wEnvBase with jsigsVerify := fun _ => { verified := true } }
                { credential := (getValues wPres2 "verifiableCredential").getD i .undefined,
                  checkStatus := none, now := .absent } with
              credentialId :=
                ((getValues wPres2 "verifiableCredential").getD i .undefined).get "id" }) ∧
        (crs.all (fun x => x.verified) = false → r.verified = false) :=
  verifyPresentation_positional_credential_results
    { wEnvBase with jsigsVerify := fun _ => { verified := true } }
    { presentation := wPres2, unsignedPresentation := true }
    rfl (Or.inl rfl)

/-- C1 counterexample: `issue` has no `try`/`catch`, so an internal
validation failure (unrecognized `@context`) escapes to the caller as a
thrown error rather than a structured `{verified: false, ...}` result. -/
theorem issue_validation_failure_escapes :
    VC.issue { }
      { credential := .obj [("@context", .arr [.str "https://example.com/unknown"]),
          ("type", .arr [.str "VerifiableCredential"])],
        suite := .obj [("verificationMethod", .str "k")] } =
      .error (.err ("\"https://www.w3.org/2018/credentials/v1\" or " ++
        "\"https://www.w3.org/ns/credentials/v2\"" ++
        " needs to be first in the list of contexts.")) := by
  rfl

/-- C1 amended: only `verifyCredential` (which `await`s inside its `try`)
converts every internal failure into the structured
`{verified: false, error, results}` record; `verify` returns the
*un-awaited* `_verifyPresentation(options)` promise from inside `try`, so
it catches only the synchronous missing-`presentation` check and passes
every failure from inside `_verifyPresentation` through to the caller;
`issue` has no handler at all and propagates its validation failures. -/
theorem public_entry_points_error_conversion
    (env1 : JSEnv) (o1 : VC.VerifyCredentialOptions) (e1 : JsErr)
    (env2 : JSEnv) (o2 : VC.VerifyPresentationOptions) (e2 : JsErr)
    (env3 : JSEnv) (o3 : VC.VerifyPresentationOptions)
    (env4 : JSEnv) (o4 : VC.IssueOptions) (e4 : JsErr)
    (h1c : o1.credential.truthy = true)
    (h1e : VC._verifyCredential env1 o1 = .error e1)
    (h2p : o2.presentation.truthy = true)
    (h2e : VC._verifyPresentation env2 o2 = .error e2)
    (h3p : o3.presentation.truthy = false)
    (h4s : o4.suite.truthy = true)
    (h4m : (o4.suite.get "verificationMethod").truthy = true)
    (h4c : o4.credential.truthy = true)
    (h4v : Helpers.checkContextVersion o4.credential 1 = false)
    (h4e : VC._checkCredential env4 o4.credential o4.now "issue" = .error e4) :
    VC.verifyCredential env1 o1 =
      { verified := false,
        results := [JSValue.obj [("credential", o1.credential),
          ("verified", .bool false),
          ("error", .str (match e1 with | .err m => m | .type m => m | .range m => m))]],
        error := some e1 } ∧
    VC.verify env2 o2 = VC._verifyPresentation env2 o2 ∧
    VC.verify env2 o2 = .error e2 ∧
    VC.verify env3 o3 = .ok
      { verified := false,
        results := some [JSValue.obj [("presentation", o3.presentation),
          ("verified", .bool false),
          ("error", .str "A \"presentation\" property is required for verifying.")]],
        error := some (.type "A \"presentation\" property is required for verifying.") } ∧
    VC.issue env4 o4 = .error e4 := by
  refine ⟨?_, ?_, ?_, ?_, ?_⟩
  · simp [VC.verifyCredential, h1c, h1e, except_bind_ok, except_throw, except_bind_error]
    cases e1 <;> rfl
  · simp [VC.verify, h2p]
  · simp [VC.verify, h2p, h2e]
  · simp [VC.verify, h3p]
  · simp [VC.issue, h4s, h4m, h4c, h4v, h4e, except_bind_ok, except_throw,
      except_bind_error]

/-- A presentation whose first context entry is unrecognized. -/
def wPresBadCtx : JSValue :=
  .obj [("@context", .arr [.str "https://example.com/unknown"]),
    ("type", .arr [.str "VerifiablePresentation"])]

/-- A credential whose first context entry is unrecognized. -/
def wCredBadCtx : JSValue :=
  .obj [("@context", .arr [.str "https://example.com/unknown"]),
    ("type", .arr [.str "VerifiableCredential"])]

/-- The context-mismatch error message of `helpers.ts`. -/
def wCtxErr : JsErr :=
  .err ("\"https://www.w3.org/2018/credentials/v1\" or " ++
    "\"https://www.w3.org/ns/credentials/v2\"" ++
    " needs to be first in the list of contexts.")

/-- C1 witness: each entry point at a concrete failing input. -/
theorem public_entry_points_error_conversion_witness :
    VC.verifyCredential { } { credential := wCredBad } =
      { verified := false,
        results := [JSValue.obj [("credential", wCredBad),
          ("verified", .bool false),
          ("error", .str (match (JsErr.err "\"issuer\" property is required.") with
            | .err m => m | .type m => m | .range m => m))]],
        error := some (.err "\"issuer\" property is required.") } ∧
    VC.verify { } { presentation := wPresBadCtx } =
      VC._verifyPresentation { } { presentation := wPresBadCtx } ∧
    VC.verify { } { presentation := wPresBadCtx } = .error wCtxErr ∧
    VC.verify { } { presentation := .undefined } = .ok
      { verified := false,
        results := some [JSValue.obj [("presentation", .undefined),
          ("verified", .bool false),
          ("error", .str "A \"presentation\" property is required for verifying.")]],
        error := some (.type "A \"presentation\" property is required for verifying.") } ∧
    VC.issue { } { credential := wCredBadCtx, suite := .obj [("verificationMethod", .str "k")] } = .error wCtxErr :=
  public_entry_points_error_conversion
    { } { credential := wCredBad } (.err "\"issuer\" property is required.")
    { } { presentation := wPresBadCtx } wCtxErr
    { } { presentation := .undefined }
    { } { credential := wCredBadCtx, suite := .obj [("verificationMethod", .str "k")] }
    wCtxErr
    rfl rfl rfl rfl rfl rfl rfl rfl rfl rfl

/-- C9 counterexample: `helpers.ts` `dateRegex` has no `^`/`$` anchors, so
`assertDateString` accepts a value that merely *contains* a dateTime as a
substring, which the claim says must be rejected. -/
theorem assertDateString_accepts_containing_string :
    Helpers.assertDateString
      (.obj [("expirationDate", .str "xx2020-05-01T00:00:00Zyy")]) "expirationDate" =
      .ok () := by
  rfl

/-- C9 amended: only the model-path validator (`assertDateTime` over the
anchored `DateTimePattern`) requires the entire string to match — it
rejects padded strings and non-`HH:MM` offsets and both paths reject
lowercase `t`/`z`; the `helpers.ts` `assertDateString` used on
`issuanceDate`/`expirationDate`/`validFrom`/`validUntil` in
`_checkCredential` is unanchored and accepts every string that contains a
matching dateTime anywhere (first conjunct), including forms with a
trailing `+HHMM`-style offset. -/
theorem dateString_validators_anchoring
    (credential : JSValue) (prop pre mid post : String)
    (hget : credential.get prop = .str (pre ++ mid ++ post))
    (hmid : dateRegexRE.test mid = true) :
    Helpers.assertDateString credential prop = .ok () ∧
    Model.assertDateTime (.str "xx2020-05-01T00:00:00Zyy") "value" =
      .error (.err "value must match DateString pattern") ∧
    Model.assertDateTime (.str "2020-05-01T00:00:00Z") "value" = .ok () ∧
    dateRegexRE.test "2020-01-01t00:00:00z" = false ∧
    DateTimePatternRE.fullmatch "2020-01-01t00:00:00z" = false ∧
    dateRegexRE.test "2020-05-01T00:00:00+0500" = true ∧
    DateTimePatternRE.fullmatch "2020-05-01T00:00:00+0500" = false := by
  refine ⟨?_, by rfl, by rfl, by rfl, by rfl, by rfl, by rfl⟩
  have htest : dateRegexRE.test (pre ++ mid ++ post) = true :=
    RE.test_of_middle dateRegexRE pre mid post hmid
  simp [Helpers.assertDateString, hget, jsToString, htest]

/-- C9 witness: the padded string split as `"xx" ++ dateTime ++ "yy"`. -/
theorem dateString_validators_anchoring_witness :
    Helpers.assertDateString
      (.obj [("expirationDate", .str ("xx" ++ "2020-05-01T00:00:00Z" ++ "yy"))])
      "expirationDate" = .ok () ∧
    Model.assertDateTime (.str "xx2020-05-01T00:00:00Zyy") "value" =
      .error (.err "value must match DateString pattern") ∧
    Model.assertDateTime (.str "2020-05-01T00:00:00Z") "value" = .ok () ∧
    dateRegexRE.test "2020-01-01t00:00:00z" = false ∧
    DateTimePatternRE.fullmatch "2020-01-01t00:00:00z" = false ∧
    dateRegexRE.test "2020-05-01T00:00:00+0500" = true ∧
    DateTimePatternRE.fullmatch "2020-05-01T00:00:00+0500" = false :=
  dateString_validators_anchoring
    (.obj [("expirationDate", .str ("xx" ++ "2020-05-01T00:00:00Z" ++ "yy"))])
    "expirationDate" "xx" "2020-05-01T00:00:00Z" "yy" rfl rfl

/-- C6: for a version-2.0 credential carrying only `validUntil` (no
`validFrom`), the verify-mode temporal check succeeds when `now` is less
than or equal to `validUntil` and fails with the after-`validUntil`
temporal error when `now` is greater — on both the `part_002`
`_checkCredential` path and the `Credential.ts` `assertCredential` path
(where the bound is enforced by `assertCredentialValidDate` with
`min = now`).  `validFrom` being absent is checked nowhere else, showing
the two fields are optional and independent. -/
theorem checkCredential_v2_validUntil_bounds (env : JSEnv) (cred : JSValue) (rest : List JSValue) (vu : String)
    (U now1 now2 : Int)
    (hctx : cred.get "@context" = .arr (.str Helpers.ctxV2 :: rest))
    (htyT : (cred.get "type").truthy = true)
    (htyI : includesSVZ (getValues cred "type") (.str "VerifiableCredential") = true)
    (hsub : VC._checkCredentialSubjects env cred = .ok ())
    (hiss : (cred.get "issuer").truthy = true)
    (hvU : cred.get "validUntil" = .str vu)
    (hvFt : (cred.get "validFrom").truthy = false)
    (hfmt : dateRegexRE.test vu = true)
    (hparse : env.parseDate vu = some U)
    (hle : now1 ≤ U) (hgt : U < now2)
    (htail : VC._checkCredential_tail env cred = .ok ())
    (hrec : Model.assertRecord cred "credential" false = .ok ())
    (hmtype : Model.assertCredentialType (cred.get "type") "credential.type" = .ok ())
    (hid : cred.hasKey "id" = false)
    (hmiss : Model.assertCredentialIssuer env (cred.get "issuer") "credential.issuer"
      true true = .ok ())
    (hmsub : Model.assertCredentialSubject env (cred.get "credentialSubject")
      "credential.credentialSubject" true = .ok ())
    (hstat : cred.hasKey "credentialStatus" = false)
    (hkeyvF : cred.hasKey "validFrom" = false)
    (hkeyvU : cred.hasKey "validUntil" = true)
    (hmfmt : DateTimePatternRE.fullmatch vu = true)
    (hev : cred.hasKey "evidence" = false)
    (htou : cred.hasKey "termsOfUse" = false)
    (hpf : cred.hasKey "proof" = false) :
    VC._checkCredential env cred (.date (some now1)) "verify" = .ok () ∧
    VC._checkCredential env cred (.date (some now2)) "verify" =
      .error (.err ("The current date time (" ++ env.isoString now2 ++
        ") is after \"validUntil\" (" ++ vu ++ ").")) ∧
    Model.assertCredential env cred "credential" "verify" (.date (some now1)) = .ok () ∧
    Model.assertCredential env cred "credential" "verify" (.date (some now2)) =
      .error (.err ("credential.validUntil must be not be before " ++
        env.isoString now2)) := by
  have hgv : Helpers.getContextVersion cred = some 2 := by
    simp only [Helpers.getContextVersion, hctx]
    rfl
  have hv1 : Helpers.checkContextVersion cred 1 = false := by
    simp [Helpers.checkContextVersion, hgv]
  have hv2 : Helpers.checkContextVersion cred 2 = true := by
    simp [Helpers.checkContextVersion, hgv]
  have hCtxOk : Helpers.assertCredentialContext (cred.get "@context") = .ok () := by
    rw [hctx]; rfl
  have hvne : vu ≠ "" := by
    intro h
    rw [h] at hfmt
    exact absurd hfmt (by decide)
  have hvStrT : (JSValue.str vu).truthy = true := by
    simp [JSValue.truthy, hvne]
  have hvUt : (cred.get "validUntil").truthy = true := by
    rw [hvU]; exact hvStrT
  have hds : Helpers.assertDateString cred "validUntil" = .ok () := by
    simp [Helpers.assertDateString, hvU, jsToString, hfmt]
  have hv2ok : VC._checkCredential_v2 env cred (some now1) "verify" = .ok () := by
    simp [VC._checkCredential_v2, hvUt, hds, hvU, hvFt, jsNewDate, hparse, jsLtB,
      not_lt.2 hle, hvStrT, except_bind_ok, except_pure, except_bind_error]
  have hv2err : VC._checkCredential_v2 env cred (some now2) "verify" =
      .error (.err ("The current date time (" ++ env.isoString now2 ++
        ") is after \"validUntil\" (" ++ vu ++ ").")) := by
    simp [VC._checkCredential_v2, hvUt, hds, hvU, hvFt, jsNewDate, hparse, jsLtB, hgt,
      isoOfOpt, jsToString, hvStrT, except_bind_ok, except_pure, except_throw,
      except_bind_error]
  refine ⟨?_, ?_, ?_, ?_⟩
  · simp [VC._checkCredential, VC.nowValue, hCtxOk, htyT, htyI, hsub, hiss, hv1, hv2,
      hv2ok, htail, except_bind_ok, except_pure]
  · simp [VC._checkCredential, VC.nowValue, hCtxOk, htyT, htyI, hsub, hiss, hv1, hv2,
      hv2err, except_bind_ok, except_pure, except_bind_error]
  · have hmctx : Model.assertCredentialContext (cred.get "@context") none = .ok () := by
      rw [hctx]; rfl
    have hver : Model.extractCredentialContextVersion (cred.get "@context") = .ok 2 := by
      rw [hctx]; rfl
    have hvdok : Model.assertCredentialValidDate env (.str vu) "credential.validUntil"
        (some (some now1)) none = .ok () := by
      simp [Model.assertCredentialValidDate, Model.assertDateTime, Model.assertString,
        jsToString, hmfmt, jsNewDate, hparse, jsLtB, not_lt.2 hle,
        except_bind_ok, except_pure]
    simp [Model.assertCredential, Model.nowValueModel, hrec, hmctx, hmtype, hid, hmiss,
      hmsub, hstat, hver, hkeyvF, hkeyvU, hvU, hvdok, hev, htou, hpf,
      except_bind_ok, except_pure]
  · have hmctx : Model.assertCredentialContext (cred.get "@context") none = .ok () := by
      rw [hctx]; rfl
    have hver : Model.extractCredentialContextVersion (cred.get "@context") = .ok 2 := by
      rw [hctx]; rfl
    have hvderr : Model.assertCredentialValidDate env (.str vu) "credential.validUntil"
        (some (some now2)) none =
        .error (.err ("credential.validUntil must be not be before " ++
          env.isoString now2)) := by
      simp [Model.assertCredentialValidDate, Model.assertDateTime, Model.assertString,
        jsToString, hmfmt, jsNewDate, hparse, jsLtB, hgt, isoOfOpt,
        except_bind_ok, except_pure, except_throw, except_bind_error]
    simp [Model.assertCredential, Model.nowValueModel, hrec, hmctx, hmtype, hid, hmiss,
      hmsub, hstat, hver, hkeyvF, hkeyvU, hvU, hvderr, hev, htou, hpf,
      except_bind_ok, except_pure, except_bind_error]

/-- Witness environment for the version-2.0 scenario. -/
def wEnvV2 : JSEnv :=
  { nowMs := 5,
    parseDate := fun s => if s = "2030-01-01T00:00:00Z" then some 2000000 else none,
    urlProtocol := fun s => if s = wIssuerUrl then some "https:" else none }

/-- Witness version-2.0 credential with only `validUntil`. -/
def wCredV2 : JSValue :=
  .obj [("@context", .arr [.str Helpers.ctxV2]),
    ("type", .arr [.str "VerifiableCredential"]),
    ("issuer", .str wIssuerUrl),
    ("credentialSubject", .obj [("name", .str "alice")]),
    ("validUntil", .str "2030-01-01T00:00:00Z")]

/-- C6 witness: `now₁ = validUntil` verifies, `now₂ = validUntil + 1ms`
fails, on both paths. -/
theorem checkCredential_v2_validUntil_bounds_witness :
    VC._checkCredential wEnvV2 wCredV2 (.date (some 2000000)) "verify" = .ok () ∧
    VC._checkCredential wEnvV2 wCredV2 (.date (some 2000001)) "verify" =
      .error (.err ("The current date time (" ++ wEnvV2.isoString 2000001 ++
        ") is after \"validUntil\" (" ++ "2030-01-01T00:00:00Z" ++ ").")) ∧
    Model.assertCredential wEnvV2 wCredV2 "credential" "verify" (.date (some 2000000)) =
      .ok () ∧
    Model.assertCredential wEnvV2 wCredV2 "credential" "verify" (.date (some 2000001)) =
      .error (.err ("credential.validUntil must be not be before " ++
        wEnvV2.isoString 2000001)) :=
  checkCredential_v2_validUntil_bounds wEnvV2 wCredV2 [] "2030-01-01T00:00:00Z"
    2000000 2000000 2000001
    rfl rfl rfl rfl rfl rfl rfl rfl rfl (by decide) (by decide)
    rfl rfl rfl rfl rfl rfl rfl rfl rfl rfl rfl rfl rfl

/-- C5: for a version-1.0 credential with format-valid date fields, the
verify-mode check fails with the "Credential has expired." temporal error
when `now` is after `expirationDate`, fails with the
before-`issuanceDate` ("not yet valid") temporal error when `now` is
before `issuanceDate` (and the expiration bound holds), and in issue mode
neither bound is checked, so the same credential passes for an arbitrary
`now` — on both the `part_002` `_checkCredential` path and the
`Credential.ts` `assertCredential`/`assertCredentialValidDate` path. -/
theorem checkCredential_v1_temporal_bounds (env : JSEnv) (cred : JSValue) (rest : List JSValue) (iss exp : String)
    (I E now1 now2 now3 : Int)
    (hctx : cred.get "@context" = .arr (.str Helpers.ctxV1 :: rest))
    (htyT : (cred.get "type").truthy = true)
    (htyI : includesSVZ (getValues cred "type") (.str "VerifiableCredential") = true)
    (hsub : VC._checkCredentialSubjects env cred = .ok ())
    (hiss : (cred.get "issuer").truthy = true)
    (hissD : cred.get "issuanceDate" = .str iss)
    (hkeyExp : jsInOp "expirationDate" cred = .ok true)
    (hexpD : cred.get "expirationDate" = .str exp)
    (hfmtI : dateRegexRE.test iss = true)
    (hfmtE : dateRegexRE.test exp = true)
    (hparseI : env.parseDate iss = some I)
    (hparseE : env.parseDate exp = some E)
    (hexp1 : E < now1) (hiss1 : I ≤ now1)
    (hexp2 : now2 ≤ E) (hiss2 : now2 < I)
    (htail : VC._checkCredential_tail env cred = .ok ())
    (hrec : Model.assertRecord cred "credential" false = .ok ())
    (hmtype : Model.assertCredentialType (cred.get "type") "credential.type" = .ok ())
    (hid : cred.hasKey "id" = false)
    (hmiss : Model.assertCredentialIssuer env (cred.get "issuer") "credential.issuer"
      true true = .ok ())
    (hmsub : Model.assertCredentialSubject env (cred.get "credentialSubject")
      "credential.credentialSubject" true = .ok ())
    (hstat : cred.hasKey "credentialStatus" = false)
    (hkeyExpM : cred.hasKey "expirationDate" = true)
    (hmfmtI : DateTimePatternRE.fullmatch iss = true)
    (hmfmtE : DateTimePatternRE.fullmatch exp = true)
    (hev : cred.hasKey "evidence" = false)
    (htou : cred.hasKey "termsOfUse" = false)
    (hpf : cred.hasKey "proof" = false) :
    VC._checkCredential env cred (.date (some now1)) "verify" =
      .error (.err "Credential has expired.") ∧
    VC._checkCredential env cred (.date (some now2)) "verify" =
      .error (.err ("The current date time (" ++ env.isoString now2 ++
        ") is before the \"issuanceDate\" (" ++ iss ++ ").")) ∧
    VC._checkCredential env cred (.date (some now3)) "issue" = .ok () ∧
    Model.assertCredential env cred "credential" "verify" (.date (some now1)) =
      .error (.err ("credential.expirationDate must be not be before " ++
        env.isoString now1)) ∧
    Model.assertCredential env cred "credential" "verify" (.date (some now2)) =
      .error (.err ("credential.issuanceDate must be not be after " ++
        env.isoString now2)) ∧
    Model.assertCredential env cred "credential" "issue" (.date (some now3)) = .ok () := by
  have hgv : Helpers.getContextVersion cred = some 1 := by
    simp only [Helpers.getContextVersion, hctx]
    rfl
  have hv1 : Helpers.checkContextVersion cred 1 = true := by
    simp [Helpers.checkContextVersion, hgv]
  have hv2 : Helpers.checkContextVersion cred 2 = false := by
    simp [Helpers.checkContextVersion, hgv]
  have hCtxOk : Helpers.assertCredentialContext (cred.get "@context") = .ok () := by
    rw [hctx]; rfl
  have hine : iss ≠ "" := by
    intro h
    rw [h] at hfmtI
    exact absurd hfmtI (by decide)
  have hiStrT : (JSValue.str iss).truthy = true := by
    simp [JSValue.truthy, hine]
  have hissDt : (cred.get "issuanceDate").truthy = true := by
    rw [hissD]; exact hiStrT
  have hdsI : Helpers.assertDateString cred "issuanceDate" = .ok () := by
    simp [Helpers.assertDateString, hissD, jsToString, hfmtI]
  have hdsE : Helpers.assertDateString cred "expirationDate" = .ok () := by
    simp [Helpers.assertDateString, hexpD, jsToString, hfmtE]
  have hcard : getValues cred "issuanceDate" = [.str iss] := by
    simp [getValues, hissD]
  have hv1err1 : VC._checkCredential_v1 env cred (some now1) "verify" =
      .error (.err "Credential has expired.") := by
    simp [VC._checkCredential_v1, hissDt, hiStrT, hdsI, hcard, hkeyExp, hdsE, hexpD,
      jsNewDate, hparseE, jsLtB, hexp1, except_bind_ok, except_pure, except_throw,
      except_bind_error]
  have hv1err2 : VC._checkCredential_v1 env cred (some now2) "verify" =
      .error (.err ("The current date time (" ++ env.isoString now2 ++
        ") is before the \"issuanceDate\" (" ++ iss ++ ").")) := by
    simp [VC._checkCredential_v1, hissDt, hiStrT, hdsI, hcard, hkeyExp, hdsE, hexpD, hissD,
      jsNewDate, hparseE, hparseI, jsLtB, not_lt.2 hexp2, hiss2, isoOfOpt, jsToString,
      except_bind_ok, except_pure, except_throw, except_bind_error]
  have hv1ok : VC._checkCredential_v1 env cred (some now3) "issue" = .ok () := by
    simp [VC._checkCredential_v1, hissDt, hiStrT, hdsI, hcard, hkeyExp, hdsE,
      except_bind_ok, except_pure]
  have hmctx : Model.assertCredentialContext (cred.get "@context") none = .ok () := by
    rw [hctx]; rfl
  have hver : Model.extractCredentialContextVersion (cred.get "@context") = .ok 1 := by
    rw [hctx]; rfl
  refine ⟨?_, ?_, ?_, ?_, ?_, ?_⟩
  · simp [VC._checkCredential, VC.nowValue, hCtxOk, htyT, htyI, hsub, hiss, hv1, hv2,
      hv1err1, except_bind_ok, except_pure, except_bind_error]
  · simp [VC._checkCredential, VC.nowValue, hCtxOk, htyT, htyI, hsub, hiss, hv1, hv2,
      hv1err2, except_bind_ok, except_pure, except_bind_error]
  · simp [VC._checkCredential, VC.nowValue, hCtxOk, htyT, htyI, hsub, hiss, hv1, hv2,
      hv1ok, htail, except_bind_ok, except_pure]
  · have hvdIok : Model.assertCredentialValidDate env (.str iss) "credential.issuanceDate"
        none (some (some now1)) = .ok () := by
      simp [Model.assertCredentialValidDate, Model.assertDateTime, Model.assertString,
        jsToString, hmfmtI, jsNewDate, hparseI, jsLtB, not_lt.2 hiss1,
        except_bind_ok, except_pure]
    have hvdEerr : Model.assertCredentialValidDate env (.str exp)
        "credential.expirationDate" (some (some now1)) none =
        .error (.err ("credential.expirationDate must be not be before " ++
          env.isoString now1)) := by
      simp [Model.assertCredentialValidDate, Model.assertDateTime, Model.assertString,
        jsToString, hmfmtE, jsNewDate, hparseE, jsLtB, hexp1, isoOfOpt,
        except_bind_ok, except_pure, except_throw, except_bind_error]
    simp [Model.assertCredential, Model.nowValueModel, hrec, hmctx, hmtype, hid, hmiss,
      hmsub, hstat, hver, hissD, hexpD, hkeyExpM, hvdIok, hvdEerr, hev, htou, hpf,
      except_bind_ok, except_pure, except_bind_error]
  · have hvdIerr : Model.assertCredentialValidDate env (.str iss)
        "credential.issuanceDate" none (some (some now2)) =
        .error (.err ("credential.issuanceDate must be not be after " ++
          env.isoString now2)) := by
      simp [Model.assertCredentialValidDate, Model.assertDateTime, Model.assertString,
        jsToString, hmfmtI, jsNewDate, hparseI, jsLtB, hiss2, isoOfOpt,
        except_bind_ok, except_pure, except_throw, except_bind_error]
    simp [Model.assertCredential, Model.nowValueModel, hrec, hmctx, hmtype, hid, hmiss,
      hmsub, hstat, hver, hissD, hkeyExpM, hvdIerr,
      except_bind_ok, except_pure, except_bind_error]
  · have hvdIok : Model.assertCredentialValidDate env (.str iss) "credential.issuanceDate"
        none none = .ok () := by
      simp [Model.assertCredentialValidDate, Model.assertDateTime, Model.assertString,
        jsToString, hmfmtI, except_bind_ok, except_pure]
    have hvdEok : Model.assertCredentialValidDate env (.str exp)
        "credential.expirationDate" none none = .ok () := by
      simp [Model.assertCredentialValidDate, Model.assertDateTime, Model.assertString,
        jsToString, hmfmtE, except_bind_ok, except_pure]
    simp [Model.assertCredential, Model.nowValueModel, hrec, hmctx, hmtype, hid, hmiss,
      hmsub, hstat, hver, hissD, hexpD, hkeyExpM, hvdIok, hvdEok, hev, htou, hpf,
      except_bind_ok, except_pure]

/-- Witness environment for the version-1.0 scenario. -/
def wEnvV1 : JSEnv :=
  { nowMs := 5,
    parseDate := fun s =>
      if s = "2020-01-01T00:00:00Z" then some 500000
      else if s = "2030-01-01T00:00:00Z" then some 2000000
      else none,
    urlProtocol := fun s => if s = wIssuerUrl then some "https:" else none }

/-- Witness version-1.0 credential with `issuanceDate` and
`expirationDate`. -/
def wCredV1E : JSValue :=
  .obj [("@context", .arr [.str Helpers.ctxV1]),
    ("type", .arr [.str "VerifiableCredential"]),
    ("issuer", .str wIssuerUrl),
    ("credentialSubject", .obj [("name", .str "alice")]),
    ("issuanceDate", .str "2020-01-01T00:00:00Z"),
    ("expirationDate", .str "2030-01-01T00:00:00Z")]

/-- C5 witness: expired at `now₁`, not yet valid at `now₂`, and accepted at
an arbitrary `now₃` in issue mode, on both paths. -/
theorem checkCredential_v1_temporal_bounds_witness :
    VC._checkCredential wEnvV1 wCredV1E (.date (some 2000001)) "verify" =
      .error (.err "Credential has expired.") ∧
    VC._checkCredential wEnvV1 wCredV1E (.date (some 400000)) "verify" =
      .error (.err ("The current date time (" ++ wEnvV1.isoString 400000 ++
        ") is before the \"issuanceDate\" (" ++ "2020-01-01T00:00:00Z" ++ ").")) ∧
    VC._checkCredential wEnvV1 wCredV1E (.date (some 999)) "issue" = .ok () ∧
    Model.assertCredential wEnvV1 wCredV1E "credential" "verify" (.date (some 2000001)) =
      .error (.err ("credential.expirationDate must be not be before " ++
        wEnvV1.isoString 2000001)) ∧
    Model.assertCredential wEnvV1 wCredV1E "credential" "verify" (.date (some 400000)) =
      .error (.err ("credential.issuanceDate must be not be after " ++
        wEnvV1.isoString 400000)) ∧
    Model.assertCredential wEnvV1 wCredV1E "credential" "issue" (.date (some 999)) =
      .ok () :=
  checkCredential_v1_temporal_bounds wEnvV1 wCredV1E []
    "2020-01-01T00:00:00Z" "2030-01-01T00:00:00Z"
    500000 2000000 2000001 400000 999
    rfl rfl rfl rfl rfl rfl rfl rfl rfl rfl rfl rfl
    (by decide) (by decide) (by decide) (by decide)
    rfl rfl rfl rfl rfl rfl rfl rfl rfl rfl rfl rfl rfl

/-- `String.toList` distributes over append. -/
theorem string_toList_append (a b : String) : (a ++ b).toList = a.toList ++ b.toList := by
  simp [String.toList]

/-- `s.slice(0, s.length - 5)` drops exactly a five-character suffix. -/
theorem jsSliceFrom0_dropLast (base suf : String) (h : suf.toList.length = 5) :
    VC.jsSliceFrom0 (base ++ suf) (((base ++ suf).toList.length : Int) - 5) = base := by
  unfold VC.jsSliceFrom0
  rw [string_toList_append, List.length_append, h]
  have he : ((base.toList.length + 5 : Nat) : Int) - 5 = (base.toList.length : Int) := by
    omega
  rw [he]
  have hnn : ¬((base.toList.length : Int) < 0) := by omega
  simp only [hnn, if_false]
  have hmin : min (base.toList.length : Int) ((base.toList.length + 5 : Nat) : Int) =
      (base.toList.length : Int) := by omega
  rw [hmin]
  rw [Int.toNat_ofNat]
  rw [List.take_left]
  cases base
  rfl

/-- An anchored match yields an empty remainder in `run`. -/
theorem mem_run_of_fullmatch {re : RE} {s : String} (h : re.fullmatch s = true) :
    [] ∈ re.run s.toList := by
  unfold RE.fullmatch at h
  rw [List.any_eq_true] at h
  obtain ⟨rem, hmem, hemp⟩ := h
  rw [List.isEmpty_iff] at hemp
  rwa [hemp] at hmem

/-- Converse of `mem_run_of_fullmatch`. -/
theorem fullmatch_of_mem_run {re : RE} {s : String} (h : [] ∈ re.run s.toList) :
    re.fullmatch s = true := by
  unfold RE.fullmatch
  rw [List.any_eq_true]
  exact ⟨[], h, rfl⟩

/-- A string fully matching the fraction-free, zone-free dateTime core,
extended with `"Z"`, fully matches both the core-then-`Z` pattern and the
whole anchored `DateTimePattern`. -/
theorem fullmatch_core_append_Z {base : String} (h : RE.fullmatch dtCoreRE base = true) :
    RE.fullmatch (RE.seq dtCoreRE (RE.chr 'Z')) (base ++ "Z") = true ∧
    RE.fullmatch DateTimePatternRE (base ++ "Z") = true := by
  have hmem : [] ∈ dtCoreRE.run base.toList := mem_run_of_fullmatch h
  have hZ : (base ++ "Z").toList = base.toList ++ ['Z'] := by
    rw [string_toList_append]; rfl
  have hext : ['Z'] ∈ dtCoreRE.run (base.toList ++ ['Z']) := by
    have := RE.run_append dtCoreRE hmem ['Z']
    simpa using this
  constructor
  · apply fullmatch_of_mem_run
    rw [hZ]
    rw [RE.mem_run_seq]
    exact ⟨['Z'], hext, by simp [RE.run]⟩
  · apply fullmatch_of_mem_run
    rw [hZ]
    show [] ∈ (RE.seq dtCoreRE (RE.seq dtFracRE (RE.seq dtZoneRE RE.eps))).run
      (base.toList ++ ['Z'])
    rw [RE.mem_run_seq]
    refine ⟨['Z'], hext, ?_⟩
    rw [RE.mem_run_seq]
    refine ⟨['Z'], by simp [dtFracRE, RE.run], ?_⟩
    rw [RE.mem_run_seq]
    refine ⟨[], ?_, by simp [RE.run]⟩
    simp [dtZoneRE, RE.run]

/-- Dropping leading digits of `digits ++ "Z" ++ tail` stops at the `Z`. -/
theorem dropWhile_digits_Z (ds tail : List Char) (hds : ∀ c ∈ ds, isDigitCh c = true) :
    (ds ++ 'Z' :: tail).dropWhile isDigitCh = 'Z' :: tail := by
  induction ds with
  | nil => rfl
  | cons d ds ih =>
    have hd : isDigitCh d = true := hds d (by simp)
    simp only [List.cons_append, List.dropWhile_cons, hd, if_true]
    exact ih (fun c hc => hds c (by simp [hc]))

/-- `replace(/\.\d*(?=Z)/, '')` on a string of the shape
`pre ++ "." ++ digits ++ "Z" ++ tail` (no dot in `pre`) removes exactly the
dot and the digits. -/
theorem stripFracAux_spec (pre ds tail : List Char)
    (hpre : ∀ c ∈ pre, c ≠ '.')
    (hds : ∀ c ∈ ds, isDigitCh c = true) :
    Model.stripFracAux (pre ++ ('.' :: (ds ++ ('Z' :: tail)))) = pre ++ ('Z' :: tail) := by
  induction pre with
  | nil =>
    simp only [List.nil_append, Model.stripFracAux, if_pos rfl]
    rw [dropWhile_digits_Z ds tail hds]
    simp
  | cons c pre ih =>
    have hc : c ≠ '.' := hpre c (by simp)
    simp only [List.cons_append, Model.stripFracAux, hc, if_false]
    exact congrArg (List.cons c) (ih (fun x hx => hpre x (by simp [hx])))

/-- Witness environment whose `toISOString` yields a fixed instant. -/
def wEnvIso : JSEnv :=
  { nowMs := 5,
    isoString := fun _ => "2024-06-01T10:20:30.123Z",
    urlProtocol := fun s => if s = wIssuerUrl then some "https:" else none }

/-- Witness suite for the model-path `issue` (has `sign` and `canonize`). -/
def wSuiteM : JSValue := .obj [("sign", .func "sign"), ("canonize", .func "canonize")]

/-- C3 counterexample: the model-path `issue` (part_005) *overwrites* an
`issuanceDate` that is already present — the input credential carries
`"2020-01-01T00:00:00Z"`, and the credential handed to the signer carries
the truncated current instant instead. -/
theorem issueModel_overwrites_issuanceDate :
    wCred.get "issuanceDate" = .str "2020-01-01T00:00:00Z" ∧
    Model.issue wEnvIso { credential := wCred, suite := wSuiteM, now := .date (some 7) } =
      .ok (wCred.set "issuanceDate" (.str "2024-06-01T10:20:30Z")) ∧
    (wCred.set "issuanceDate" (.str "2024-06-01T10:20:30Z")).get "issuanceDate" =
      .str "2024-06-01T10:20:30Z" ∧
    "2024-06-01T10:20:30Z" ≠ "2020-01-01T00:00:00Z" :=
  ⟨rfl, rfl, rfl, by decide⟩

/-- C3 amended: the `part_002` `issue` defaults a *missing* `issuanceDate`
of a version-1.0 credential to the current instant truncated to whole
seconds with a trailing `Z` — the written string matches the strict
dateTime pattern with zero sub-second digits and `Z` suffix — and leaves a
present `issuanceDate` unchanged (the signer receives the credential
as-is); the model-path `issue` (part_005) instead assigns
`issuanceDate` from the current instant *unconditionally* for version-1.0
credentials, overwriting any present value (last conjunct holds with no
hypothesis about `o3.credential`'s own `issuanceDate`). -/
theorem issue_issuanceDate_defaulting
    (env1 : JSEnv) (o1 : VC.IssueOptions) (base suf : String)
    (env2 : JSEnv) (o2 : VC.IssueOptions)
    (env3 : JSEnv) (o3 : Model.IssueModelOptions) (n3 : Int) (base3 ds3 : List Char)
    (h1s : o1.suite.truthy = true)
    (h1m : (o1.suite.get "verificationMethod").truthy = true)
    (h1c : o1.credential.truthy = true)
    (h1v1 : Helpers.checkContextVersion o1.credential 1 = true)
    (h1abs : (o1.credential.get "issuanceDate").truthy = false)
    (hjson : env1.nowJSON = base ++ suf)
    (hsuf : suf.toList.length = 5)
    (hbase : RE.fullmatch dtCoreRE base = true)
    (h1chk : VC._checkCredential env1
      (o1.credential.set "issuanceDate" (.str (base ++ "Z"))) o1.now "issue" = .ok ())
    (h2s : o2.suite.truthy = true)
    (h2m : (o2.suite.get "verificationMethod").truthy = true)
    (h2c : o2.credential.truthy = true)
    (h2pres : (Helpers.checkContextVersion o2.credential 1 &&
      !(o2.credential.get "issuanceDate").truthy) = false)
    (h2chk : VC._checkCredential env2 o2.credential o2.now "issue" = .ok ())
    (h3rec : Model.assertRecord o3.credential "value" false = .ok ())
    (h3suite : Model.assertLinkedDataSignature o3.suite "suite" = .ok ())
    (h3ver : Model.extractCredentialContextVersion (o3.credential.get "@context") = .ok 1)
    (h3now : o3.now = .date (some n3))
    (hiso : (env3.isoString n3).toList = base3 ++ ('.' :: (ds3 ++ ('Z' :: []))))
    (hb3 : ∀ c ∈ base3, c ≠ '.')
    (hd3 : ∀ c ∈ ds3, isDigitCh c = true)
    (h3chk : Model.assertCredential env3
      (o3.credential.set "issuanceDate" (.str (String.mk (base3 ++ ('Z' :: [])))))
      "credential" "issue" (.date (some n3)) = .ok ()) :
    VC.issue env1 o1 =
      .ok (env1.jsigsSign (o1.credential.set "issuanceDate" (.str (base ++ "Z")))) ∧
    RE.fullmatch (RE.seq dtCoreRE (RE.chr 'Z')) (base ++ "Z") = true ∧
    RE.fullmatch DateTimePatternRE (base ++ "Z") = true ∧
    VC.issue env2 o2 = .ok (env2.jsigsSign o2.credential) ∧
    Model.issue env3 o3 =
      .ok (env3.jsigsSign (o3.credential.set "issuanceDate"
        (.str (String.mk (base3 ++ ('Z' :: [])))))) := by
  obtain ⟨hfm1, hfm2⟩ := fullmatch_core_append_Z hbase
  refine ⟨?_, hfm1, hfm2, ?_, ?_⟩
  · have hslice : VC.jsSliceFrom0 env1.nowJSON ((env1.nowJSON.length : Int) - 5) =
        base := by
      rw [hjson]
      have h := jsSliceFrom0_dropLast base suf hsuf
      simpa using h
    simp [VC.issue, h1s, h1m, h1c, h1v1, h1abs, hslice, h1chk,
      except_bind_ok, except_pure]
  · simp [VC.issue, h2s, h2m, h2c, h2pres, h2chk, except_bind_ok, except_pure]
  · have hstrip : Model.stripFraction (env3.isoString n3) =
        String.mk (base3 ++ ('Z' :: [])) := by
      unfold Model.stripFraction
      rw [hiso, stripFracAux_spec base3 ds3 [] hb3 hd3]
    simp [Model.issue, h3now, h3rec, h3suite, h3ver, hstrip, h3chk,
      except_bind_ok, except_pure]

/-- Witness suite for the part_002 `issue` (needs `verificationMethod`). -/
def wSuiteVM : JSValue := .obj [("verificationMethod", .str "k")]

/-- Witness credential without `issuanceDate`. -/
def wCredND : JSValue :=
  .obj [("@context", .arr [.str Helpers.ctxV1]),
    ("type", .arr [.str "VerifiableCredential"]),
    ("issuer", .str wIssuerUrl),
    ("credentialSubject", .obj [("name", .str "alice")])]

/-- Witness environment with a fixed `(new Date()).toJSON()`. -/
def wEnvJson : JSEnv :=
  { nowMs := 5,
    nowJSON := "2024-06-01T10:20:30.123Z",
    urlProtocol := fun s => if s = wIssuerUrl then some "https:" else none }

/-- C3 witness: defaulting from `"2024-06-01T10:20:30.123Z"`, the
keep-present behaviour of the `part_002` `issue`, and the unconditional
overwrite of the model-path `issue`, all at concrete inputs. -/
theorem issue_issuanceDate_defaulting_witness :
    VC.issue wEnvJson { credential := wCredND, suite := wSuiteVM } =
      .ok (wEnvJson.jsigsSign (wCredND.set "issuanceDate"
        (.str ("2024-06-01T10:20:30" ++ "Z")))) ∧
    RE.fullmatch (RE.seq dtCoreRE (RE.chr 'Z')) ("2024-06-01T10:20:30" ++ "Z") = true ∧
    RE.fullmatch DateTimePatternRE ("2024-06-01T10:20:30" ++ "Z") = true ∧
    VC.issue wEnvV1 { credential := wCred, suite := wSuiteVM } =
      .ok (wEnvV1.jsigsSign wCred) ∧
    Model.issue wEnvIso { credential := wCred, suite := wSuiteM, now := .date (some 7) } =
      .ok (wEnvIso.jsigsSign (wCred.set "issuanceDate"
        (.str (String.mk ("2024-06-01T10:20:30".toList ++ ('Z' :: [])))))) :=
  issue_issuanceDate_defaulting
    wEnvJson { credential := wCredND, suite := wSuiteVM } "2024-06-01T10:20:30" ".123Z"
    wEnvV1 { credential := wCred, suite := wSuiteVM }
    wEnvIso { credential := wCred, suite := wSuiteM, now := .date (some 7) } 7
    "2024-06-01T10:20:30".toList "123".toList
    rfl rfl rfl rfl rfl rfl rfl rfl rfl
    rfl rfl rfl rfl rfl
    rfl rfl rfl rfl rfl (by decide) (by decide) rfl
